import Mathlib

/-!
A verification development for the fcmlib repository: the SVG-path to FCM
outline converter (`src/svg_path.rs`), the registration-mark calculator
(`src/registration_marks.rs`), and a model of the binary container codec.

Floating-point (`f64`) arithmetic of the source is embedded as exact rational
arithmetic (`ℚ`); `f64::round` is round-half-away-from-zero, and the `as i32`
cast truncates toward zero and saturates, both modelled explicitly below.
The transcendental functions used by the non-degenerate elliptical-arc
expansion are not representable over `ℚ`; they are supplied by a `TrigOracle`
parameter, and every theorem below holds for all oracles.
-/

namespace Fcm

attribute [local semireducible] Rat.add Rat.mul Rat.sub Rat.inv Rat.ofScientific

/-- Decidable equality of `Except` values, for evaluating parser results. -/
instance {ε α : Type _} [DecidableEq ε] [DecidableEq α] : DecidableEq (Except ε α) := fun a b =>
  match a, b with
  | .error e, .error f =>
    if h : e = f then .isTrue (by rw [h]) else .isFalse (by simp [h])
  | .ok x, .ok y =>
    if h : x = y then .isTrue (by rw [h]) else .isFalse (by simp [h])
  | .error _, .ok _ => .isFalse (by simp)
  | .ok _, .error _ => .isFalse (by simp)

/-- Rounding as `f64::round` does: half away from zero, as an integer. -/
def fround (q : ℚ) : ℤ :=
  if q < 0 then -⌊-q + 1/2⌋ else ⌊q + 1/2⌋

/-- Saturation of an integer into the `i32` range (Rust float-to-int `as` casts saturate). -/
def clampI32 (n : ℤ) : ℤ :=
  max (-2147483648) (min 2147483647 n)

/-- Evaluates `x.round() as i32` on an `f64` value `x`. -/
def roundToI32 (q : ℚ) : ℤ :=
  clampI32 (fround q)

/-- Evaluates `x as i32` on an `f64` value `x`: truncation toward zero, saturating. -/
def truncToI32 (q : ℚ) : ℤ :=
  clampI32 (if q < 0 then -⌊-q⌋ else ⌊q⌋)

/-- FCM `Point`: coordinates are `i32` in hundredths of a millimeter. -/
structure Point where
  x : ℤ
  y : ℤ
deriving DecidableEq, Repr

/-- Configuration for SVG to FCM conversion (`SvgConfig` in `svg_path.rs`). -/
structure SvgConfig where
  dpi : ℚ
  scale : ℚ
  offset_x_mm : ℚ
  offset_y_mm : ℚ
deriving DecidableEq, Repr

/-- The `Default` impl of `SvgConfig`: dpi 96, scale 1, zero offsets. -/
def defaultConfig : SvgConfig :=
  { dpi := 96, scale := 1, offset_x_mm := 0, offset_y_mm := 0 }

/-- Conversion `SvgConfig::to_fcm`: SVG pixels → inches → mm → hundredths of mm, rounded. -/
def SvgConfig.to_fcm (cfg : SvgConfig) (svg_value : ℚ) : ℤ :=
  let inches := svg_value / cfg.dpi
  let mm := inches * (254/10) * cfg.scale
  roundToI32 (mm * 100)

/-- Conversion `SvgConfig::point_to_fcm`: scaled-and-rounded coordinate plus the
millimeter offset cast to `i32` (a truncating cast in the source). -/
def SvgConfig.point_to_fcm (cfg : SvgConfig) (x y : ℚ) : Point :=
  { x := cfg.to_fcm x + truncToI32 (cfg.offset_x_mm * 100)
    y := cfg.to_fcm y + truncToI32 (cfg.offset_y_mm * 100) }

/-! ## Registration marks (`registration_marks.rs`) -/

/-- Constant `dimensions::X_INSET_MM`. -/
def X_INSET_MM : ℚ := 12

/-- Constant `dimensions::Y_INSET_MM` (13.98 mm). -/
def Y_INSET_MM : ℚ := 1398/100

/-- Page size in millimeters. -/
structure PageSize where
  width_mm : ℚ
  height_mm : ℚ
deriving DecidableEq, Repr

/-- US Letter page size, `PageSize::LETTER`. -/
def PageSize.LETTER : PageSize := { width_mm := 2159/10, height_mm := 2794/10 }

/-- Position of a single registration mark, in millimeters. -/
structure MarkPosition where
  x_mm : ℚ
  y_mm : ℚ
deriving DecidableEq, Repr

/-- Conversion `MarkPosition::to_fcm_point`: `(mm * 100).round() as i32` on each axis. -/
def MarkPosition.to_fcm_point (m : MarkPosition) : Point :=
  { x := roundToI32 (m.x_mm * 100), y := roundToI32 (m.y_mm * 100) }

/-- The function `calculate_mark_positions`: top-left, top-right, bottom-right, bottom-left. -/
def calculate_mark_positions (page : PageSize) : List MarkPosition :=
  [ { x_mm := X_INSET_MM, y_mm := Y_INSET_MM }
  , { x_mm := page.width_mm - X_INSET_MM, y_mm := Y_INSET_MM }
  , { x_mm := page.width_mm - X_INSET_MM, y_mm := page.height_mm - Y_INSET_MM }
  , { x_mm := X_INSET_MM, y_mm := page.height_mm - Y_INSET_MM } ]

/-- The function `get_fcm_alignment_marks`: the four mark positions in native units. -/
def get_fcm_alignment_marks (page : PageSize) : List Point :=
  (calculate_mark_positions page).map MarkPosition.to_fcm_point

/-! ## SVG path parser (`svg_path.rs`) -/

/-- Token types for path parsing. -/
inductive Token where
  | command (c : Char)
  | number (n : ℚ)
deriving DecidableEq, Repr

/-- Internal segment representation (the `Segment` enum). -/
inductive Segment where
  | line (x y : ℚ)
  | cubic (c1x c1y c2x c2y x y : ℚ)
deriving DecidableEq, Repr

/-- Whether a segment is the cubic variant. -/
def Segment.isCubic : Segment → Bool
  | .cubic _ _ _ _ _ _ => true
  | .line _ _ => false

/-- A line segment of an FCM outline; `endPoint` is the source's `end` field
(a reserved word in Lean). -/
structure SegmentLine where
  endPoint : Point
deriving DecidableEq, Repr

/-- A cubic bezier segment of an FCM outline. -/
structure SegmentBezier where
  control1 : Point
  control2 : Point
  endPoint : Point
deriving DecidableEq, Repr

/-- An FCM outline: homogeneous list of line or of bezier segments. -/
inductive Outline where
  | line (segments : List SegmentLine)
  | bezier (segments : List SegmentBezier)
deriving DecidableEq, Repr

/-- A parsed SVG subpath (`ParsedSubpath`). -/
structure ParsedSubpath where
  start : Point
  outline : Outline
  closed : Bool
deriving DecidableEq, Repr

/-- An FCM path shape (`PathShape`): a start point plus outlines. -/
structure PathShape where
  start : Point
  outlines : List Outline
deriving DecidableEq, Repr

/-- Failure of the parser: either a returned `SvgParseError { message, position }`,
or a Rust panic (out-of-bounds slice indexing). -/
inductive PErr where
  | parseError (message : String) (position : Nat)
  | panic
deriving DecidableEq, Repr

/-- The transcendental `f64` functions used by the elliptical-arc expansion.
They are not representable over `ℚ`, so the development is parameterized over
an arbitrary oracle supplying them; no claim depends on their values. -/
structure TrigOracle where
  sin : ℚ → ℚ
  cos : ℚ → ℚ
  tan : ℚ → ℚ
  acos : ℚ → ℚ
  sqrt : ℚ → ℚ
  pi : ℚ

/-- A concrete oracle (used only to evaluate inputs that never reach the
non-degenerate arc expansion). -/
def zeroOracle : TrigOracle :=
  { sin := fun _ => 0, cos := fun _ => 0, tan := fun _ => 0
    acos := fun _ => 0, sqrt := fun _ => 0, pi := 0 }

/-- Degree-to-radian conversion (`f64::to_radians`). -/
def toRadians (O : TrigOracle) (deg : ℚ) : ℚ := deg * O.pi / 180

/-- Angle between two vectors (the private `angle` helper). -/
def angle (O : TrigOracle) (ux uy vx vy : ℚ) : ℚ :=
  let dot := ux * vx + uy * vy
  let len := O.sqrt (ux * ux + uy * uy) * O.sqrt (vx * vx + vy * vy)
  let a := O.acos (min 1 (max (-1) (dot / len)))
  if ux * vy - uy * vx < 0 then -a else a

/-- One cubic segment per up-to-90-degree arc piece (the `for` loop in
`arc_to_beziers`); recursion counts the remaining pieces. -/
def arcSegments (O : TrigOracle) (cx cy rx ry cosPhi sinPhi dthetaPer : ℚ) :
    Nat → ℚ → List Segment
  | 0, _ => []
  | n + 1, theta1 =>
    let thetaEnd := theta1 + dthetaPer
    let t := O.tan (dthetaPer / 4)
    let alpha := O.sin dthetaPer * (O.sqrt (4 + 3 * t * t) - 1) / 3
    let cosT1 := O.cos theta1
    let sinT1 := O.sin theta1
    let cosT2 := O.cos thetaEnd
    let sinT2 := O.sin thetaEnd
    let p1x := cx + rx * cosPhi * cosT1 - ry * sinPhi * sinT1
    let p1y := cy + rx * sinPhi * cosT1 + ry * cosPhi * sinT1
    let p2x := cx + rx * cosPhi * cosT2 - ry * sinPhi * sinT2
    let p2y := cy + rx * sinPhi * cosT2 + ry * cosPhi * sinT2
    let dx1 := -rx * cosPhi * sinT1 - ry * sinPhi * cosT1
    let dy1 := -rx * sinPhi * sinT1 + ry * cosPhi * cosT1
    let dx2 := -rx * cosPhi * sinT2 - ry * sinPhi * cosT2
    let dy2 := -rx * sinPhi * sinT2 + ry * cosPhi * cosT2
    Segment.cubic (p1x + alpha * dx1) (p1y + alpha * dy1)
        (p2x - alpha * dx2) (p2y - alpha * dy2) p2x p2y ::
      arcSegments O cx cy rx ry cosPhi sinPhi dthetaPer n thetaEnd

/-- Convert an arc to cubic bezier segments (`arc_to_beziers`). The two
degenerate guards (1e-10 tolerances) are exact; the remainder uses the oracle. -/
def arc_to_beziers (O : TrigOracle) (x1 y1 rx0 ry0 x_rotation : ℚ)
    (large_arc sweep : Bool) (x2 y2 : ℚ) : List Segment :=
  if |x1 - x2| < 1/10000000000 ∧ |y1 - y2| < 1/10000000000 then
    []
  else if |rx0| < 1/10000000000 ∨ |ry0| < 1/10000000000 then
    [Segment.line x2 y2]
  else
    let rxa := |rx0|
    let rya := |ry0|
    let phi := toRadians O x_rotation
    let cosPhi := O.cos phi
    let sinPhi := O.sin phi
    let dx := (x1 - x2) / 2
    let dy := (y1 - y2) / 2
    let x1p := cosPhi * dx + sinPhi * dy
    let y1p := -sinPhi * dx + cosPhi * dy
    let lambda := (x1p * x1p) / (rxa * rxa) + (y1p * y1p) / (rya * rya)
    let rx := if lambda > 1 then rxa * O.sqrt lambda else rxa
    let ry := if lambda > 1 then rya * O.sqrt lambda else rya
    let rx2 := rx * rx
    let ry2 := ry * ry
    let x1p2 := x1p * x1p
    let y1p2 := y1p * y1p
    let sq0 := max ((rx2 * ry2 - rx2 * y1p2 - ry2 * x1p2) / (rx2 * y1p2 + ry2 * x1p2)) 0
    let sqr := O.sqrt sq0
    let sq := if large_arc = sweep then -sqr else sqr
    let cxp := sq * rx * y1p / ry
    let cyp := -sq * ry * x1p / rx
    let cx := cosPhi * cxp - sinPhi * cyp + (x1 + x2) / 2
    let cy := sinPhi * cxp + cosPhi * cyp + (y1 + y2) / 2
    let theta1 := angle O 1 0 ((x1p - cxp) / rx) ((y1p - cyp) / ry)
    let dtheta0 := angle O ((x1p - cxp) / rx) ((y1p - cyp) / ry)
        ((-x1p - cxp) / rx) ((-y1p - cyp) / ry)
    let dtheta :=
      if ¬sweep ∧ dtheta0 > 0 then dtheta0 - 2 * O.pi
      else if sweep ∧ dtheta0 < 0 then dtheta0 + 2 * O.pi
      else dtheta0
    let nCurves := (⌈|dtheta| / (O.pi / 2)⌉).toNat
    let dthetaPer := dtheta / (nCurves : ℚ)
    arcSegments O cx cy rx ry cosPhi sinPhi dthetaPer nCurves theta1

/-- The mutable locals of `parse_tokens`: current point, subpath start,
open flag, and the smooth-curve reflection state. -/
structure St where
  cx : ℚ
  cy : ℚ
  sx : ℚ
  sy : ℚ
  hasStart : Bool
  lcx : ℚ
  lcy : ℚ
  lastCmd : Char
deriving DecidableEq, Repr

/-- The initial locals of `parse_tokens`. -/
def initSt : St :=
  { cx := 0, cy := 0, sx := 0, sy := 0, hasStart := false, lcx := 0, lcy := 0, lastCmd := ' ' }

/-- Reads a numeric token (`read_number`); a command token is a parse error. -/
def readNumber : Token → Except PErr ℚ
  | .number n => .ok n
  | .command c => .error (.parseError ("Expected number, got command '" ++ toString c ++ "'") 0)

/-- Reads a coordinate pair (`read_point`); on success two tokens are consumed. -/
def readPoint (is_relative : Bool) (current_x current_y : ℚ) :
    List Token → Except PErr (ℚ × ℚ)
  | t1 :: t2 :: _ =>
    match readNumber t1 with
    | .error e => .error e
    | .ok x =>
      match readNumber t2 with
      | .error e => .error e
      | .ok y => if is_relative then .ok (current_x + x, current_y + y) else .ok (x, y)
  | _ => .error (.parseError "Not enough values for point" 0)

/-- Unchecked slice indexing `tokens[i + n]` followed by `read_number`: an
out-of-bounds index is a Rust panic, not a returned error. -/
def readIdx (ts : List Token) (n : Nat) : Except PErr ℚ :=
  match ts.get? n with
  | some t => readNumber t
  | none => .error .panic

/-- Result of one command's operand-consuming `while` loop: updated locals,
segment list, token index, and remaining tokens. -/
abbrev LoopRes := Except PErr (St × List Segment × Nat × List Token)

/-- The `L` loop (also the implicit line-tos after `M`'s first pair). -/
def lineLoop (is_relative : Bool) (st : St) (segs : List Segment) (i : Nat) :
    List Token → LoopRes
  | ts@(.number _ :: _ :: rest) =>
    match readPoint is_relative st.cx st.cy ts with
    | .error e => .error e
    | .ok (x, y) =>
      lineLoop is_relative { st with cx := x, cy := y }
        (segs ++ [Segment.line x y]) (i + 2) rest
  | ts@(.number _ :: []) =>
    -- a single trailing token: `read_point` fails ("Not enough values for point")
    match readPoint is_relative st.cx st.cy ts with
    | .error e => .error e
    | .ok (x, y) => .ok ({ st with cx := x, cy := y }, segs ++ [Segment.line x y], i + 2, [])
  | ts => .ok (st, segs, i, ts)

/-- The `H` loop: horizontal line-tos, reusing the current y. -/
def hLoop (is_relative : Bool) (st : St) (segs : List Segment) (i : Nat) :
    List Token → LoopRes
  | .number n :: rest =>
    let x := if is_relative then st.cx + n else n
    hLoop is_relative { st with cx := x } (segs ++ [Segment.line x st.cy]) (i + 1) rest
  | ts => .ok (st, segs, i, ts)

/-- The `V` loop: vertical line-tos, reusing the current x. -/
def vLoop (is_relative : Bool) (st : St) (segs : List Segment) (i : Nat) :
    List Token → LoopRes
  | .number n :: rest =>
    let y := if is_relative then st.cy + n else n
    vLoop is_relative { st with cy := y } (segs ++ [Segment.line st.cx y]) (i + 1) rest
  | ts => .ok (st, segs, i, ts)

/-- The `C` loop: three coordinate pairs per cubic segment. -/
def cLoop (is_relative : Bool) (st : St) (segs : List Segment) (i : Nat) :
    List Token → LoopRes
  | ts@(.number _ :: _t2 :: t3 :: t4 :: t5 :: t6 :: rest) =>
    match readPoint is_relative st.cx st.cy ts with
    | .error e => .error e
    | .ok (c1x, c1y) =>
      match readPoint is_relative st.cx st.cy (t3 :: t4 :: t5 :: t6 :: rest) with
      | .error e => .error e
      | .ok (c2x, c2y) =>
        match readPoint is_relative st.cx st.cy (t5 :: t6 :: rest) with
        | .error e => .error e
        | .ok (x, y) =>
          cLoop is_relative { st with cx := x, cy := y, lcx := c2x, lcy := c2y }
            (segs ++ [Segment.cubic c1x c1y c2x c2y x y]) (i + 6) rest
  | ts@(.number _ :: _) =>
    -- fewer than six tokens remain, so one of the three reads fails; had they
    -- all succeeded the remainder would be empty and the loop would exit
    match readPoint is_relative st.cx st.cy ts with
    | .error e => .error e
    | .ok (c1x, c1y) =>
      match readPoint is_relative st.cx st.cy (ts.drop 2) with
      | .error e => .error e
      | .ok (c2x, c2y) =>
        match readPoint is_relative st.cx st.cy (ts.drop 4) with
        | .error e => .error e
        | .ok (x, y) =>
          .ok ({ st with cx := x, cy := y, lcx := c2x, lcy := c2y },
            segs ++ [Segment.cubic c1x c1y c2x c2y x y], i + 6, [])
  | ts => .ok (st, segs, i, ts)

/-- The `S` loop: control1 is the reflection of the remembered control point
through the current point when the last executed command was `C` or `S`
(`lastCmd` is set once per command letter, so it is fixed across iterations). -/
def sLoop (is_relative : Bool) (st : St) (segs : List Segment) (i : Nat) :
    List Token → LoopRes
  | ts@(.number _ :: _t2 :: t3 :: t4 :: rest) =>
    let c1x := if st.lastCmd = 'C' ∨ st.lastCmd = 'S' then 2 * st.cx - st.lcx else st.cx
    let c1y := if st.lastCmd = 'C' ∨ st.lastCmd = 'S' then 2 * st.cy - st.lcy else st.cy
    match readPoint is_relative st.cx st.cy ts with
    | .error e => .error e
    | .ok (c2x, c2y) =>
      match readPoint is_relative st.cx st.cy (t3 :: t4 :: rest) with
      | .error e => .error e
      | .ok (x, y) =>
        sLoop is_relative { st with cx := x, cy := y, lcx := c2x, lcy := c2y }
          (segs ++ [Segment.cubic c1x c1y c2x c2y x y]) (i + 4) rest
  | ts@(.number _ :: _) =>
    let c1x := if st.lastCmd = 'C' ∨ st.lastCmd = 'S' then 2 * st.cx - st.lcx else st.cx
    let c1y := if st.lastCmd = 'C' ∨ st.lastCmd = 'S' then 2 * st.cy - st.lcy else st.cy
    match readPoint is_relative st.cx st.cy ts with
    | .error e => .error e
    | .ok (c2x, c2y) =>
      match readPoint is_relative st.cx st.cy (ts.drop 2) with
      | .error e => .error e
      | .ok (x, y) =>
        .ok ({ st with cx := x, cy := y, lcx := c2x, lcy := c2y },
          segs ++ [Segment.cubic c1x c1y c2x c2y x y], i + 4, [])
  | ts => .ok (st, segs, i, ts)

/-- The `Q` loop: quadratic converted to cubic by degree elevation; the
quadratic control point is remembered for `T` reflection. -/
def qLoop (is_relative : Bool) (st : St) (segs : List Segment) (i : Nat) :
    List Token → LoopRes
  | ts@(.number _ :: _t2 :: t3 :: t4 :: rest) =>
    match readPoint is_relative st.cx st.cy ts with
    | .error e => .error e
    | .ok (qx, qy) =>
      match readPoint is_relative st.cx st.cy (t3 :: t4 :: rest) with
      | .error e => .error e
      | .ok (x, y) =>
        let c1x := st.cx + (2/3) * (qx - st.cx)
        let c1y := st.cy + (2/3) * (qy - st.cy)
        let c2x := x + (2/3) * (qx - x)
        let c2y := y + (2/3) * (qy - y)
        qLoop is_relative { st with cx := x, cy := y, lcx := qx, lcy := qy }
          (segs ++ [Segment.cubic c1x c1y c2x c2y x y]) (i + 4) rest
  | ts@(.number _ :: _) =>
    match readPoint is_relative st.cx st.cy ts with
    | .error e => .error e
    | .ok (qx, qy) =>
      match readPoint is_relative st.cx st.cy (ts.drop 2) with
      | .error e => .error e
      | .ok (x, y) =>
        let c1x := st.cx + (2/3) * (qx - st.cx)
        let c1y := st.cy + (2/3) * (qy - st.cy)
        let c2x := x + (2/3) * (qx - x)
        let c2y := y + (2/3) * (qy - y)
        .ok ({ st with cx := x, cy := y, lcx := qx, lcy := qy },
          segs ++ [Segment.cubic c1x c1y c2x c2y x y], i + 4, [])
  | ts => .ok (st, segs, i, ts)

/-- The `T` loop: smooth quadratic; reflects when the last executed command
was `Q` or `T`, then converts to cubic. -/
def tLoop (is_relative : Bool) (st : St) (segs : List Segment) (i : Nat) :
    List Token → LoopRes
  | ts@(.number _ :: _ :: rest) =>
    let qx := if st.lastCmd = 'Q' ∨ st.lastCmd = 'T' then 2 * st.cx - st.lcx else st.cx
    let qy := if st.lastCmd = 'Q' ∨ st.lastCmd = 'T' then 2 * st.cy - st.lcy else st.cy
    match readPoint is_relative st.cx st.cy ts with
    | .error e => .error e
    | .ok (x, y) =>
      let c1x := st.cx + (2/3) * (qx - st.cx)
      let c1y := st.cy + (2/3) * (qy - st.cy)
      let c2x := x + (2/3) * (qx - x)
      let c2y := y + (2/3) * (qy - y)
      tLoop is_relative { st with cx := x, cy := y, lcx := qx, lcy := qy }
        (segs ++ [Segment.cubic c1x c1y c2x c2y x y]) (i + 2) rest
  | ts@(.number _ :: []) =>
    let qx := if st.lastCmd = 'Q' ∨ st.lastCmd = 'T' then 2 * st.cx - st.lcx else st.cx
    let qy := if st.lastCmd = 'Q' ∨ st.lastCmd = 'T' then 2 * st.cy - st.lcy else st.cy
    match readPoint is_relative st.cx st.cy ts with
    | .error e => .error e
    | .ok (x, y) =>
      let c1x := st.cx + (2/3) * (qx - st.cx)
      let c1y := st.cy + (2/3) * (qy - st.cy)
      let c2x := x + (2/3) * (qx - x)
      let c2y := y + (2/3) * (qy - y)
      .ok ({ st with cx := x, cy := y, lcx := qx, lcy := qy },
        segs ++ [Segment.cubic c1x c1y c2x c2y x y], i + 2, [])
  | ts => .ok (st, segs, i, ts)

/-- The `A` loop: reads `(rx, ry, x_rotation, large_arc, sweep, endpoint)` with
unchecked indexing (`tokens[i+1]` … `tokens[i+4]`), expands to segments, and
advances by seven tokens. -/
def aLoop (O : TrigOracle) (is_relative : Bool) (st : St) (segs : List Segment) (i : Nat) :
    List Token → LoopRes
  | .number rx :: t2 :: t3 :: t4 :: t5 :: t6 :: t7 :: rest =>
    match readNumber t2 with
    | .error e => .error e
    | .ok ry =>
      match readNumber t3 with
      | .error e => .error e
      | .ok x_rotation =>
        match readNumber t4 with
        | .error e => .error e
        | .ok la =>
          match readNumber t5 with
          | .error e => .error e
          | .ok sw =>
            match readPoint is_relative st.cx st.cy (t6 :: t7 :: rest) with
            | .error e => .error e
            | .ok (x, y) =>
              aLoop O is_relative { st with cx := x, cy := y }
                (segs ++ arc_to_beziers O st.cx st.cy rx ry x_rotation (la ≠ 0) (sw ≠ 0) x y)
                (i + 7) rest
  | ts@(.number rx :: _) =>
    -- fewer than seven tokens: either an unchecked index is out of bounds (a
    -- panic) or the endpoint read fails; the success continuation is dead code
    match readIdx ts 1 with
    | .error e => .error e
    | .ok ry =>
      match readIdx ts 2 with
      | .error e => .error e
      | .ok x_rotation =>
        match readIdx ts 3 with
        | .error e => .error e
        | .ok la =>
          match readIdx ts 4 with
          | .error e => .error e
          | .ok sw =>
            match readPoint is_relative st.cx st.cy (ts.drop 5) with
            | .error e => .error e
            | .ok (x, y) =>
              .ok ({ st with cx := x, cy := y },
                segs ++ arc_to_beziers O st.cx st.cy rx ry x_rotation (la ≠ 0) (sw ≠ 0) x y,
                i + 7, [])
  | ts => .ok (st, segs, i, ts)

/-- Builds a `ParsedSubpath` from accumulated segments (`build_subpath`):
if any segment is a cubic, every line is promoted to a degenerate bezier
whose control points equal its endpoint; otherwise the line variant is used.
In the line branch the cubic case is `unreachable!()` in the source (no cubic
is present when `has_beziers` is false); it is mapped benignly here. -/
def build_subpath (cfg : SvgConfig) (start_x start_y : ℚ) (segments : List Segment)
    (closed : Bool) : ParsedSubpath :=
  let start := cfg.point_to_fcm start_x start_y
  let has_beziers := segments.any Segment.isCubic
  let outline :=
    if has_beziers then
      Outline.bezier (segments.map fun seg =>
        match seg with
        | .line x y =>
          let e := cfg.point_to_fcm x y
          { control1 := e, control2 := e, endPoint := e }
        | .cubic c1x c1y c2x c2y x y =>
          { control1 := cfg.point_to_fcm c1x c1y
            control2 := cfg.point_to_fcm c2x c2y
            endPoint := cfg.point_to_fcm x y })
    else
      Outline.line (segments.map fun seg =>
        match seg with
        | .line x y => { endPoint := cfg.point_to_fcm x y }
        | .cubic _ _ _ _ x y => { endPoint := cfg.point_to_fcm x y })
  { start := start, outline := outline, closed := closed }

/-- Passes a loop result through one command dispatch, leaving the output
subpath list unchanged (the shared shape of the `L`/`H`/`V`/`C`/`S`/`Q`/`T`/`A`
branches). -/
def viaLoop (acc : List ParsedSubpath) :
    LoopRes → Except PErr (St × List Segment × List ParsedSubpath × Nat × List Token)
  | .error e => .error e
  | .ok (st2, segs2, i2, ts2) => .ok (st2, segs2, acc, i2, ts2)

/-- The `M` branch: flush any open subpath as unclosed, read the new start
point, then treat further coordinate pairs as line-tos. -/
def execM (cfg : SvgConfig) (st : St) (segs : List Segment) (acc : List ParsedSubpath)
    (i : Nat) (is_relative : Bool) (rest : List Token) :
    Except PErr (St × List Segment × List ParsedSubpath × Nat × List Token) :=
  match readPoint is_relative st.cx st.cy rest with
  | .error e => .error e
  | .ok (x, y) =>
    viaLoop
      (if st.hasStart && !(List.isEmpty segs) then
        acc ++ [build_subpath cfg st.sx st.sy segs false]
      else acc)
      (lineLoop is_relative
        { st with sx := x, sy := y, cx := x, cy := y, hasStart := true }
        (if st.hasStart && !(List.isEmpty segs) then [] else segs)
        (i + 1 + 2) (rest.drop 2))

/-- The `Z` branch: append the closing line when the current point is farther
than 1e-3 from the subpath start, flush closed, reset the current point. -/
def execZ (cfg : SvgConfig) (st : St) (segs : List Segment) (acc : List ParsedSubpath)
    (i : Nat) (rest : List Token) :
    Except PErr (St × List Segment × List ParsedSubpath × Nat × List Token) :=
  .ok ({ st with cx := st.sx, cy := st.sy, hasStart := false },
    if st.hasStart && !(List.isEmpty segs) then [] else segs,
    if st.hasStart && !(List.isEmpty segs) then
      acc ++ [build_subpath cfg st.sx st.sy
        (if |st.cx - st.sx| > 1/1000 ∨ |st.cy - st.sy| > 1/1000 then
          segs ++ [Segment.line st.sx st.sy]
        else segs) true]
    else acc, i + 1, rest)

/-- One command dispatch of `parse_tokens` (the body of the big `match`),
returning the updated locals, segments, output subpaths, token index, and
remaining tokens; `last_command` is assigned by the caller afterwards. The
source's locals `is_relative`, `cmd_upper` and the post-increment index are
inlined as `c.isLower`, `c.toUpper` and `i + 1`. -/
def execCmd (cfg : SvgConfig) (O : TrigOracle) (st : St) (segs : List Segment)
    (acc : List ParsedSubpath) (i : Nat) (c : Char) (rest : List Token) :
    Except PErr (St × List Segment × List ParsedSubpath × Nat × List Token) :=
  if c.toUpper = 'M' then execM cfg st segs acc i c.isLower rest
  else if c.toUpper = 'L' then viaLoop acc (lineLoop c.isLower st segs (i + 1) rest)
  else if c.toUpper = 'H' then viaLoop acc (hLoop c.isLower st segs (i + 1) rest)
  else if c.toUpper = 'V' then viaLoop acc (vLoop c.isLower st segs (i + 1) rest)
  else if c.toUpper = 'C' then viaLoop acc (cLoop c.isLower st segs (i + 1) rest)
  else if c.toUpper = 'S' then viaLoop acc (sLoop c.isLower st segs (i + 1) rest)
  else if c.toUpper = 'Q' then viaLoop acc (qLoop c.isLower st segs (i + 1) rest)
  else if c.toUpper = 'T' then viaLoop acc (tLoop c.isLower st segs (i + 1) rest)
  else if c.toUpper = 'A' then viaLoop acc (aLoop O c.isLower st segs (i + 1) rest)
  else if c.toUpper = 'Z' then execZ cfg st segs acc i rest
  else .error (.parseError ("Unknown command: " ++ toString c) (i + 1))

/-- The main loop of `parse_tokens`. Each iteration consumes at least one
token, so fuel exceeding the token count never runs out; the fuel-0 branch is
dead code supplied only to make the recursion structural. -/
def run (cfg : SvgConfig) (O : TrigOracle) :
    Nat → St → List Segment → List ParsedSubpath → Nat → List Token →
    Except PErr (List ParsedSubpath)
  | _ + 1, st, segs, acc, _, [] =>
    -- end of input: flush any still-open subpath as unclosed
    if st.hasStart && !(List.isEmpty segs) then
      .ok (acc ++ [build_subpath cfg st.sx st.sy segs false])
    else .ok acc
  | _ + 1, _, _, _, i, .number _ :: _ =>
    .error (.parseError "Unexpected number without command" i)
  | fuel + 1, st, segs, acc, i, .command c :: rest =>
    match execCmd cfg O st segs acc i c rest with
    | .error e => .error e
    | .ok (st2, segs2, acc2, i2, ts2) =>
      run cfg O fuel { st2 with lastCmd := c.toUpper } segs2 acc2 i2 ts2
  | 0, _, _, _, _, _ => .error .panic

/-- The function `parse_tokens`. -/
def parse_tokens (cfg : SvgConfig) (O : TrigOracle) (tokens : List Token) :
    Except PErr (List ParsedSubpath) :=
  run cfg O (tokens.length + 1) initSt [] [] 0 tokens

/-! ## Tokenizer -/

/-- Recognized command letters. -/
def isCmdChar : Char → Bool
  | 'M' | 'm' | 'L' | 'l' | 'H' | 'h' | 'V' | 'v' | 'C' | 'c'
  | 'S' | 's' | 'Q' | 'q' | 'T' | 't' | 'A' | 'a' | 'Z' | 'z' => true
  | _ => false

/-- Whitespace and comma separators. -/
def isSepChar : Char → Bool
  | ' ' | '\t' | '\n' | '\r' | ',' => true
  | _ => false

/-- Number-start characters. -/
def isNumStart (c : Char) : Bool :=
  c = '-' || c = '+' || c = '.' || c.isDigit

/-- Value of a digit string. -/
def digitsVal (ds : List Char) : ℕ :=
  ds.foldl (fun a c => 10 * a + (c.toNat - 48)) 0

/-- Exact value of a lexed decimal literal (`f64` parsing, idealized to `ℚ`). -/
def numValue (neg : Bool) (ip fp : List Char) (eneg : Bool) (ed : List Char) : ℚ :=
  let mant : ℚ := (digitsVal ip : ℚ) + (digitsVal fp : ℚ) / (10 : ℚ) ^ fp.length
  let ex : ℤ := if eneg then -(digitsVal ed : ℤ) else (digitsVal ed : ℤ)
  let v := mant * (10 : ℚ) ^ ex
  if neg then -v else v

/-- The tokenizer loop (`tokenize` in the source). Each iteration consumes at
least one character, so the fuel-0 branch is dead code. -/
def tokenizeLoop : Nat → List Char → Nat → List Token → Except PErr (List Token)
  | _ + 1, [], _, toks => .ok toks
  | fuel + 1, ch :: cs, pos, toks =>
    if isSepChar ch then
      tokenizeLoop fuel cs (pos + 1) toks
    else if isCmdChar ch then
      tokenizeLoop fuel cs (pos + 1) (toks ++ [Token.command ch])
    else if isNumStart ch then
      -- sign
      let hasSign := ch = '-' || ch = '+'
      let rest0 := if hasSign then cs else ch :: cs
      let pos0 := if hasSign then pos + 1 else pos
      -- integer part
      let ipr := rest0.span Char.isDigit
      let pos1 := pos0 + ipr.1.length
      -- decimal part
      let dotr : Bool × List Char × List Char × Nat :=
        match ipr.2 with
        | '.' :: r =>
          let fpr := r.span Char.isDigit
          (true, fpr.1, fpr.2, pos1 + 1 + fpr.1.length)
        | r => (false, [], r, pos1)
      -- exponent part
      let expr : Bool × Bool × Bool × List Char × List Char × Nat :=
        match dotr.2.2.1 with
        | e :: r =>
          if e = 'e' || e = 'E' then
            match r with
            | s :: r2 =>
              if s = '-' || s = '+' then
                let edr := r2.span Char.isDigit
                (true, true, s = '-', edr.1, edr.2, dotr.2.2.2 + 2 + edr.1.length)
              else
                let edr := (s :: r2).span Char.isDigit
                (true, false, false, edr.1, edr.2, dotr.2.2.2 + 1 + edr.1.length)
            | [] => (true, false, false, [], [], dotr.2.2.2 + 1)
          else (false, false, false, [], e :: r, dotr.2.2.2)
        | [] => (false, false, false, [], [], dotr.2.2.2)
      let hasExp := expr.1
      let ed := expr.2.2.2.1
      let rest3 := expr.2.2.2.2.1
      let pos3 := expr.2.2.2.2.2
      -- `num_str.parse::<f64>()` fails when the mantissa has no digit or an
      -- exponent marker has no following digit
      if (ipr.1.isEmpty && dotr.2.1.isEmpty) || (hasExp && ed.isEmpty) then
        .error (.parseError "Invalid number" pos3)
      else
        tokenizeLoop fuel rest3 pos3
          (toks ++ [Token.number (numValue (ch = '-') ipr.1 dotr.2.1 expr.2.2.1 ed)])
    else
      .error (.parseError ("Unexpected character: '" ++ toString ch ++ "'") pos)
  | 0, _, _, _ => .error .panic

/-- The function `tokenize`. -/
def tokenize (d : String) : Except PErr (List Token) :=
  tokenizeLoop (d.length + 1) d.toList 0 []

/-- The function `parse_to_subpaths`: tokenize, then interpret. -/
def parse_to_subpaths (cfg : SvgConfig) (O : TrigOracle) (d : String) :
    Except PErr (List ParsedSubpath) :=
  match tokenize d with
  | .error e => .error e
  | .ok toks => parse_tokens cfg O toks

/-- The function `parse`: each subpath becomes a `PathShape` with one outline. -/
def parse (cfg : SvgConfig) (O : TrigOracle) (d : String) :
    Except PErr (List PathShape) :=
  match parse_to_subpaths cfg O d with
  | .error e => .error e
  | .ok subs => .ok (subs.map fun sp => { start := sp.start, outlines := [sp.outline] })

/-! ## Binary container codec

The codec source is not part of this repository checkout; the types and the
encoder/decoder below are modelled from the specification's Data Model (§3)
and codec contract (§4.4): a header record, a cut-parameters record, and a
count-prefixed piece table of `(id, piece)` records, with pieces holding
count-prefixed paths, optional shapes, and tagged outlines. The proprietary
byte-level field widths are unspecified, so records are modelled as flat
sequences of integer atoms; strings are integer (character-code) lists and
the thumbnail is an opaque count-prefixed blob. -/

/-- Modelled from the spec: the container sub-format discriminator of the
missing codec source (the spec names "two container sub-formats"). -/
inductive FileVariant where
  | v1
  | v2
deriving DecidableEq, Repr

/-- Modelled from the spec: the `file_type` enum of the missing codec source
(`Cut`, `PrintAndCut`, …). -/
inductive FileType where
  | cut
  | printAndCut
deriving DecidableEq, Repr

/-- Modelled from the spec: `AlignmentData` of the missing codec source —
a needed flag plus registration-mark points. -/
structure AlignmentData where
  needed : Bool
  marks : List Point
deriving DecidableEq, Repr

/-- Modelled from the spec: `CutData` of the missing codec source. -/
structure CutData where
  file_type : FileType
  mat_id : ℤ
  cut_width : ℤ
  cut_height : ℤ
  seam_allowance_width : ℤ
  alignment : Option AlignmentData
deriving DecidableEq, Repr

/-- Modelled from the spec: `Path` of the missing codec source — a tool
bit-set, an optional shape, and rhinestone metadata. -/
structure FcmPath where
  tool : ℤ
  shape : Option PathShape
  rhinestone_diameter : Option ℤ
  rhinestones : List Point
deriving DecidableEq, Repr

/-- Modelled from the spec: `Piece` of the missing codec source — bounds, a
2D affine transform `(a, b, c, d, tx, ty)`, limits, flags, label, paths. -/
structure Piece where
  width : ℤ
  height : ℤ
  a : ℤ
  b : ℤ
  c : ℤ
  d : ℤ
  tx : ℤ
  ty : ℤ
  expansion_limit : ℤ
  reduction_limit : ℤ
  restriction_flags : ℤ
  label : List ℤ
  paths : List FcmPath
deriving DecidableEq, Repr

/-- Modelled from the spec: `PieceTable` of the missing codec source — an
ordered association list of unique integer ids to pieces. -/
structure PieceTable where
  pieces : List (ℤ × Piece)
deriving DecidableEq, Repr

/-- Modelled from the spec: `FileHeader` of the missing codec source. -/
structure FileHeader where
  variant : FileVariant
  version : List ℤ
  content_id : ℤ
  short_name : List ℤ
  long_name : List ℤ
  author_name : List ℤ
  copyright : List ℤ
  thumbnail_width : ℤ
  thumbnail_height : ℤ
  thumbnail : List ℤ
  generator : ℤ
  print_to_cut : Option Bool
deriving DecidableEq, Repr

/-- Modelled from the spec: `FcmFile`, the top-level persisted aggregate. -/
structure FcmFile where
  file_header : FileHeader
  cut_data : CutData
  piece_table : PieceTable
deriving DecidableEq, Repr

/-- Modelled from the spec: a boolean atom. -/
def encBool (b : Bool) : List ℤ :=
  [if b then 1 else 0]

/-- Modelled from the spec: an optional record is a presence tag plus body. -/
def encOpt {α : Type _} (f : α → List ℤ) : Option α → List ℤ
  | none => [0]
  | some a => 1 :: f a

/-- Modelled from the spec: a count-prefixed sequence of records. -/
def encSeq {α : Type _} (f : α → List ℤ) (l : List α) : List ℤ :=
  (l.length : ℤ) :: (l.map f).flatten

/-- Modelled from the spec: a point as two coordinate atoms. -/
def encPoint (p : Point) : List ℤ :=
  [p.x, p.y]

/-- Modelled from the spec: a line segment record. -/
def encSegLine (s : SegmentLine) : List ℤ :=
  encPoint s.endPoint

/-- Modelled from the spec: a bezier segment record. -/
def encSegBezier (s : SegmentBezier) : List ℤ :=
  encPoint s.control1 ++ encPoint s.control2 ++ encPoint s.endPoint

/-- Modelled from the spec: an outline is a line/bezier discriminator followed
by a count-prefixed sequence of same-kind segments. -/
def encOutline : Outline → List ℤ
  | .line ls => 0 :: encSeq encSegLine ls
  | .bezier bs => 1 :: encSeq encSegBezier bs

/-- Modelled from the spec: a shape is a start point followed by a
count-prefixed sequence of outlines. -/
def encPathShape (s : PathShape) : List ℤ :=
  encPoint s.start ++ encSeq encOutline s.outlines

/-- Modelled from the spec: a path record of the missing codec source. -/
def encFcmPath (p : FcmPath) : List ℤ :=
  p.tool :: (encOpt encPathShape p.shape ++
    encOpt (fun n => [n]) p.rhinestone_diameter ++ encSeq encPoint p.rhinestones)

/-- Modelled from the spec: a piece record of the missing codec source. -/
def encPiece (pc : Piece) : List ℤ :=
  [pc.width, pc.height, pc.a, pc.b, pc.c, pc.d, pc.tx, pc.ty,
    pc.expansion_limit, pc.reduction_limit, pc.restriction_flags] ++
    encSeq (fun n => [n]) pc.label ++ encSeq encFcmPath pc.paths

/-- Modelled from the spec: the piece table as count-prefixed `(id, piece)` records. -/
def encPieceTable (t : PieceTable) : List ℤ :=
  encSeq (fun e => e.1 :: encPiece e.2) t.pieces

/-- Modelled from the spec: the file-type discriminator. -/
def encFileType : FileType → List ℤ
  | .cut => [0]
  | .printAndCut => [1]

/-- Modelled from the spec: the format-variant discriminator. -/
def encVariant : FileVariant → List ℤ
  | .v1 => [0]
  | .v2 => [1]

/-- Modelled from the spec: the alignment block — needed flag plus a
count-prefixed point list. -/
def encAlignment (al : AlignmentData) : List ℤ :=
  encBool al.needed ++ encSeq encPoint al.marks

/-- Modelled from the spec: the cut-parameters record. -/
def encCutData (cd : CutData) : List ℤ :=
  encFileType cd.file_type ++
    [cd.mat_id, cd.cut_width, cd.cut_height, cd.seam_allowance_width] ++
    encOpt encAlignment cd.alignment

/-- Modelled from the spec: the header record. -/
def encHeader (h : FileHeader) : List ℤ :=
  encVariant h.variant ++ encSeq (fun n => [n]) h.version ++ [h.content_id] ++
    encSeq (fun n => [n]) h.short_name ++ encSeq (fun n => [n]) h.long_name ++
    encSeq (fun n => [n]) h.author_name ++ encSeq (fun n => [n]) h.copyright ++
    [h.thumbnail_width, h.thumbnail_height] ++ encSeq (fun n => [n]) h.thumbnail ++
    [h.generator] ++ encOpt encBool h.print_to_cut

/-- Modelled from the spec: `encode(FcmFile) -> bytes` — header, cut data,
piece table. -/
def encode (f : FcmFile) : List ℤ :=
  encHeader f.file_header ++ encCutData f.cut_data ++ encPieceTable f.piece_table

/-- Modelled from the spec: a decoder consumes a prefix and returns the value
plus the remaining atoms, or fails. -/
abbrev Dec (α : Type _) := List ℤ → Option (α × List ℤ)

/-- Modelled from the spec: reads one atom; a short read fails. -/
def decInt : Dec ℤ
  | n :: r => some (n, r)
  | [] => none

/-- Modelled from the spec: reads a boolean atom; other values are format errors. -/
def decBool : Dec Bool
  | n :: r => if n = 0 then some (false, r) else if n = 1 then some (true, r) else none
  | [] => none

/-- Modelled from the spec: reads a presence tag then the optional body. -/
def decOpt {α : Type _} (f : Dec α) : Dec (Option α) := fun r =>
  match decInt r with
  | some (0, r1) => some (none, r1)
  | some (1, r1) =>
    match f r1 with
    | some (a, r2) => some (some a, r2)
    | none => none
  | _ => none

/-- Modelled from the spec: reads a known count of records. -/
def decSeqAux {α : Type _} (f : Dec α) : Nat → Dec (List α)
  | 0, r => some ([], r)
  | n + 1, r =>
    match f r with
    | some (a, r1) =>
      match decSeqAux f n r1 with
      | some (as, r2) => some (a :: as, r2)
      | none => none
    | none => none

/-- Modelled from the spec: reads a count prefix then that many records; a
negative count is a format error. -/
def decSeq {α : Type _} (f : Dec α) : Dec (List α) := fun r =>
  match decInt r with
  | some (n, r1) => if n < 0 then none else decSeqAux f n.toNat r1
  | none => none

/-- Modelled from the spec: reads a point. -/
def decPoint : Dec Point
  | x :: y :: r => some ({ x := x, y := y }, r)
  | _ => none

/-- Modelled from the spec: reads a line segment record. -/
def decSegLine : Dec SegmentLine := fun r =>
  match decPoint r with
  | some (p, r1) => some ({ endPoint := p }, r1)
  | none => none

/-- Modelled from the spec: reads a bezier segment record. -/
def decSegBezier : Dec SegmentBezier := fun r =>
  match decPoint r with
  | some (c1, r1) =>
    match decPoint r1 with
    | some (c2, r2) =>
      match decPoint r2 with
      | some (e, r3) => some ({ control1 := c1, control2 := c2, endPoint := e }, r3)
      | none => none
    | none => none
  | none => none

/-- Modelled from the spec: dispatches on the outline discriminator; an
unrecognized discriminator is a format error. -/
def decOutline : Dec Outline := fun r =>
  match decInt r with
  | some (0, r1) =>
    match decSeq decSegLine r1 with
    | some (ls, r2) => some (.line ls, r2)
    | none => none
  | some (1, r1) =>
    match decSeq decSegBezier r1 with
    | some (bs, r2) => some (.bezier bs, r2)
    | none => none
  | _ => none

/-- Modelled from the spec: reads a shape. -/
def decPathShape : Dec PathShape := fun r =>
  match decPoint r with
  | some (st, r1) =>
    match decSeq decOutline r1 with
    | some (os, r2) => some ({ start := st, outlines := os }, r2)
    | none => none
  | none => none

/-- Modelled from the spec: reads a path record. -/
def decFcmPath : Dec FcmPath := fun r =>
  match decInt r with
  | some (tool, r1) =>
    match decOpt decPathShape r1 with
    | some (shape, r2) =>
      match decOpt decInt r2 with
      | some (rd, r3) =>
        match decSeq decPoint r3 with
        | some (rs, r4) =>
          some ({ tool := tool, shape := shape, rhinestone_diameter := rd, rhinestones := rs }, r4)
        | none => none
      | none => none
    | none => none
  | none => none

/-- Modelled from the spec: reads a piece record. -/
def decPiece : Dec Piece
  | w :: h :: a :: b :: c :: d :: tx :: ty :: el :: rl :: rf :: r =>
    match decSeq decInt r with
    | some (label, r1) =>
      match decSeq decFcmPath r1 with
      | some (paths, r2) =>
        some ({ width := w, height := h, a := a, b := b, c := c, d := d, tx := tx, ty := ty,
                expansion_limit := el, reduction_limit := rl, restriction_flags := rf,
                label := label, paths := paths }, r2)
      | none => none
    | none => none
  | _ => none

/-- Modelled from the spec: reads one `(id, piece)` record. -/
def decIdPiece : Dec (ℤ × Piece) := fun r =>
  match decInt r with
  | some (idv, r1) =>
    match decPiece r1 with
    | some (pc, r2) => some ((idv, pc), r2)
    | none => none
  | none => none

/-- Modelled from the spec: reads the piece table. -/
def decPieceTable : Dec PieceTable := fun r =>
  match decSeq decIdPiece r with
  | some (ps, r1) => some ({ pieces := ps }, r1)
  | none => none

/-- Modelled from the spec: reads the file-type discriminator; unrecognized
values are format errors. -/
def decFileType : Dec FileType := fun r =>
  match decInt r with
  | some (0, r1) => some (.cut, r1)
  | some (1, r1) => some (.printAndCut, r1)
  | _ => none

/-- Modelled from the spec: reads the format-variant discriminator;
unrecognized values are format errors. -/
def decVariant : Dec FileVariant := fun r =>
  match decInt r with
  | some (0, r1) => some (.v1, r1)
  | some (1, r1) => some (.v2, r1)
  | _ => none

/-- Modelled from the spec: reads the alignment block. -/
def decAlignment : Dec AlignmentData := fun r =>
  match decBool r with
  | some (needed, r1) =>
    match decSeq decPoint r1 with
    | some (marks, r2) => some ({ needed := needed, marks := marks }, r2)
    | none => none
  | none => none

/-- Modelled from the spec: reads the cut-parameters record. -/
def decCutData : Dec CutData := fun r =>
  match decFileType r with
  | some (ft, r1) =>
    match r1 with
    | mat :: cw :: ch :: saw :: r2 =>
      match decOpt decAlignment r2 with
      | some (al, r3) =>
        some ({ file_type := ft, mat_id := mat, cut_width := cw, cut_height := ch,
                seam_allowance_width := saw, alignment := al }, r3)
      | none => none
    | _ => none
  | none => none

/-- Modelled from the spec: reads the header record. -/
def decHeader : Dec FileHeader := fun r =>
  match decVariant r with
  | some (va, r1) =>
    match decSeq decInt r1 with
    | some (version, r2) =>
      match r2 with
      | cid :: r3 =>
        match decSeq decInt r3 with
        | some (sn, r4) =>
          match decSeq decInt r4 with
          | some (ln, r5) =>
            match decSeq decInt r5 with
            | some (an, r6) =>
              match decSeq decInt r6 with
              | some (cp, r7) =>
                match r7 with
                | tw :: th :: r8 =>
                  match decSeq decInt r8 with
                  | some (tn, r9) =>
                    match r9 with
                    | gen :: r10 =>
                      match decOpt decBool r10 with
                      | some (ptc, r11) =>
                        some ({ variant := va, version := version, content_id := cid,
                                short_name := sn, long_name := ln, author_name := an,
                                copyright := cp, thumbnail_width := tw, thumbnail_height := th,
                                thumbnail := tn, generator := gen, print_to_cut := ptc }, r11)
                      | none => none
                    | [] => none
                  | none => none
                | _ => none
              | none => none
            | none => none
          | none => none
        | none => none
      | [] => none
    | none => none
  | none => none

/-- Modelled from the spec: `decode(bytes) -> FcmFile`; trailing bytes are a
format error. -/
def decode (bytes : List ℤ) : Option FcmFile :=
  match decHeader bytes with
  | some (h, r1) =>
    match decCutData r1 with
    | some (cd, r2) =>
      match decPieceTable r2 with
      | some (pt, r3) =>
        match r3 with
        | [] => some { file_header := h, cut_data := cd, piece_table := pt }
        | _ :: _ => none
      | none => none
    | none => none
  | none => none

/-! ## Predicates used by the claims -/

/-- Homogenization of a subpath's segments into an outline, as the claims
state it: if any segment is a cubic the outline is the bezier variant with
every line segment appearing as a degenerate cubic whose control points both
equal its endpoint; otherwise it is the line variant with exactly the line
segments. -/
def OutlineMatches (cfg : SvgConfig) (segs : List Segment) (o : Outline) : Prop :=
  if segs.any Segment.isCubic then
    ∃ bs, o = Outline.bezier bs ∧
      List.Forall₂ (fun s b => ∀ x y, s = Segment.line x y →
        SegmentBezier.control1 b = SegmentBezier.endPoint b ∧
        SegmentBezier.control2 b = SegmentBezier.endPoint b ∧
        SegmentBezier.endPoint b = cfg.point_to_fcm x y) segs bs
  else
    ∃ ls, o = Outline.line ls ∧
      List.Forall₂ (fun s l => ∀ x y, s = Segment.line x y →
        SegmentLine.endPoint l = cfg.point_to_fcm x y) segs ls

/-- A subpath that is the image of `build_subpath` for some flushed segment
list, with the homogeneous outline the claims describe. -/
def SubpathHomogeneous (cfg : SvgConfig) (sp : ParsedSubpath) : Prop :=
  ∃ sx sy segs closed, sp = build_subpath cfg sx sy segs closed ∧
    OutlineMatches cfg segs sp.outline

/-- A token list containing no move command (`M`/`m`). -/
def NoMoveCmd (ts : List Token) : Prop :=
  ∀ c : Char, Token.command c ∈ ts → c.toUpper ≠ 'M'

/-! ## Frame lemmas: the operand loops preserve the subpath-start state and
return a suffix of their input tokens -/

theorem suffix_cons_extend {α : Type _} {l1 l2 : List α} (a : α) (h : l1 <:+ l2) :
    l1 <:+ a :: l2 :=
  h.trans (List.suffix_cons a l2)

theorem lineLoop_frame (is_relative : Bool) :
    ∀ (st : St) (segs : List Segment) (i : Nat) (ts : List Token)
      (st' : St) (segs' : List Segment) (i' : Nat) (ts' : List Token),
      lineLoop is_relative st segs i ts = .ok (st', segs', i', ts') →
      st'.hasStart = st.hasStart ∧ st'.sx = st.sx ∧ st'.sy = st.sy ∧ ts' <:+ ts := by
  intro st segs i ts
  induction st, segs, i, ts using (lineLoop.induct is_relative) <;>
    intro st' segs' i' ts' h <;>
    simp_all [lineLoop, List.drop_succ_cons, List.drop_one]
  all_goals first
    | (obtain ⟨rfl, -, -, -⟩ := h; simp [List.nil_suffix])
    | (rename_i ih
       exact suffix_cons_extend _ ((ih st' segs' i' ts' rfl rfl rfl rfl).2.2.2))
    | (rename_i ih
       exact suffix_cons_extend _ (suffix_cons_extend _ ((ih st' segs' i' ts' rfl rfl rfl rfl).2.2.2)))
    | (rename_i ih
       exact suffix_cons_extend _ (suffix_cons_extend _ (suffix_cons_extend _ (suffix_cons_extend _ ((ih st' segs' i' ts' rfl rfl rfl rfl).2.2.2)))))
    | (rename_i ih
       exact suffix_cons_extend _ (suffix_cons_extend _ (suffix_cons_extend _ (suffix_cons_extend _ (suffix_cons_extend _ (suffix_cons_extend _ ((ih st' segs' i' ts' rfl rfl rfl rfl).2.2.2)))))))
    | (rename_i ih
       exact suffix_cons_extend _ (suffix_cons_extend _ (suffix_cons_extend _ (suffix_cons_extend _ (suffix_cons_extend _ (suffix_cons_extend _ (suffix_cons_extend _ ((ih st' segs' i' ts' rfl rfl rfl rfl).2.2.2))))))))

theorem hLoop_frame (is_relative : Bool) :
    ∀ (st : St) (segs : List Segment) (i : Nat) (ts : List Token)
      (st' : St) (segs' : List Segment) (i' : Nat) (ts' : List Token),
      hLoop is_relative st segs i ts = .ok (st', segs', i', ts') →
      st'.hasStart = st.hasStart ∧ st'.sx = st.sx ∧ st'.sy = st.sy ∧ ts' <:+ ts := by
  intro st segs i ts
  induction st, segs, i, ts using (hLoop.induct is_relative) <;>
    intro st' segs' i' ts' h <;>
    simp_all [hLoop, List.drop_succ_cons, List.drop_one]
  all_goals first
    | (obtain ⟨rfl, -, -, -⟩ := h; simp [List.nil_suffix])
    | (rename_i ih
       exact suffix_cons_extend _ ((ih st' segs' i' ts' rfl rfl rfl rfl).2.2.2))
    | (rename_i ih
       exact suffix_cons_extend _ (suffix_cons_extend _ ((ih st' segs' i' ts' rfl rfl rfl rfl).2.2.2)))
    | (rename_i ih
       exact suffix_cons_extend _ (suffix_cons_extend _ (suffix_cons_extend _ (suffix_cons_extend _ ((ih st' segs' i' ts' rfl rfl rfl rfl).2.2.2)))))
    | (rename_i ih
       exact suffix_cons_extend _ (suffix_cons_extend _ (suffix_cons_extend _ (suffix_cons_extend _ (suffix_cons_extend _ (suffix_cons_extend _ ((ih st' segs' i' ts' rfl rfl rfl rfl).2.2.2)))))))
    | (rename_i ih
       exact suffix_cons_extend _ (suffix_cons_extend _ (suffix_cons_extend _ (suffix_cons_extend _ (suffix_cons_extend _ (suffix_cons_extend _ (suffix_cons_extend _ ((ih st' segs' i' ts' rfl rfl rfl rfl).2.2.2))))))))

theorem vLoop_frame (is_relative : Bool) :
    ∀ (st : St) (segs : List Segment) (i : Nat) (ts : List Token)
      (st' : St) (segs' : List Segment) (i' : Nat) (ts' : List Token),
      vLoop is_relative st segs i ts = .ok (st', segs', i', ts') →
      st'.hasStart = st.hasStart ∧ st'.sx = st.sx ∧ st'.sy = st.sy ∧ ts' <:+ ts := by
  intro st segs i ts
  induction st, segs, i, ts using (vLoop.induct is_relative) <;>
    intro st' segs' i' ts' h <;>
    simp_all [vLoop, List.drop_succ_cons, List.drop_one]
  all_goals first
    | (obtain ⟨rfl, -, -, -⟩ := h; simp [List.nil_suffix])
    | (rename_i ih
       exact suffix_cons_extend _ ((ih st' segs' i' ts' rfl rfl rfl rfl).2.2.2))
    | (rename_i ih
       exact suffix_cons_extend _ (suffix_cons_extend _ ((ih st' segs' i' ts' rfl rfl rfl rfl).2.2.2)))
    | (rename_i ih
       exact suffix_cons_extend _ (suffix_cons_extend _ (suffix_cons_extend _ (suffix_cons_extend _ ((ih st' segs' i' ts' rfl rfl rfl rfl).2.2.2)))))
    | (rename_i ih
       exact suffix_cons_extend _ (suffix_cons_extend _ (suffix_cons_extend _ (suffix_cons_extend _ (suffix_cons_extend _ (suffix_cons_extend _ ((ih st' segs' i' ts' rfl rfl rfl rfl).2.2.2)))))))
    | (rename_i ih
       exact suffix_cons_extend _ (suffix_cons_extend _ (suffix_cons_extend _ (suffix_cons_extend _ (suffix_cons_extend _ (suffix_cons_extend _ (suffix_cons_extend _ ((ih st' segs' i' ts' rfl rfl rfl rfl).2.2.2))))))))

theorem cLoop_frame (is_relative : Bool) :
    ∀ (st : St) (segs : List Segment) (i : Nat) (ts : List Token)
      (st' : St) (segs' : List Segment) (i' : Nat) (ts' : List Token),
      cLoop is_relative st segs i ts = .ok (st', segs', i', ts') →
      st'.hasStart = st.hasStart ∧ st'.sx = st.sx ∧ st'.sy = st.sy ∧ ts' <:+ ts := by
  intro st segs i ts
  induction st, segs, i, ts using (cLoop.induct is_relative) <;>
    intro st' segs' i' ts' h <;>
    simp_all [cLoop, List.drop_succ_cons, List.drop_one]
  all_goals first
    | (obtain ⟨rfl, -, -, -⟩ := h; simp [List.nil_suffix])
    | (rename_i ih
       exact suffix_cons_extend _ ((ih st' segs' i' ts' rfl rfl rfl rfl).2.2.2))
    | (rename_i ih
       exact suffix_cons_extend _ (suffix_cons_extend _ ((ih st' segs' i' ts' rfl rfl rfl rfl).2.2.2)))
    | (rename_i ih
       exact suffix_cons_extend _ (suffix_cons_extend _ (suffix_cons_extend _ (suffix_cons_extend _ ((ih st' segs' i' ts' rfl rfl rfl rfl).2.2.2)))))
    | (rename_i ih
       exact suffix_cons_extend _ (suffix_cons_extend _ (suffix_cons_extend _ (suffix_cons_extend _ (suffix_cons_extend _ (suffix_cons_extend _ ((ih st' segs' i' ts' rfl rfl rfl rfl).2.2.2)))))))
    | (rename_i ih
       exact suffix_cons_extend _ (suffix_cons_extend _ (suffix_cons_extend _ (suffix_cons_extend _ (suffix_cons_extend _ (suffix_cons_extend _ (suffix_cons_extend _ ((ih st' segs' i' ts' rfl rfl rfl rfl).2.2.2))))))))

theorem sLoop_frame (is_relative : Bool) :
    ∀ (st : St) (segs : List Segment) (i : Nat) (ts : List Token)
      (st' : St) (segs' : List Segment) (i' : Nat) (ts' : List Token),
      sLoop is_relative st segs i ts = .ok (st', segs', i', ts') →
      st'.hasStart = st.hasStart ∧ st'.sx = st.sx ∧ st'.sy = st.sy ∧ ts' <:+ ts := by
  intro st segs i ts
  induction st, segs, i, ts using (sLoop.induct is_relative) <;>
    intro st' segs' i' ts' h <;>
    simp_all [sLoop, List.drop_succ_cons, List.drop_one]
  all_goals first
    | (obtain ⟨rfl, -, -, -⟩ := h; simp [List.nil_suffix])
    | (rename_i ih
       exact suffix_cons_extend _ ((ih st' segs' i' ts' rfl rfl rfl rfl).2.2.2))
    | (rename_i ih
       exact suffix_cons_extend _ (suffix_cons_extend _ ((ih st' segs' i' ts' rfl rfl rfl rfl).2.2.2)))
    | (rename_i ih
       exact suffix_cons_extend _ (suffix_cons_extend _ (suffix_cons_extend _ (suffix_cons_extend _ ((ih st' segs' i' ts' rfl rfl rfl rfl).2.2.2)))))
    | (rename_i ih
       exact suffix_cons_extend _ (suffix_cons_extend _ (suffix_cons_extend _ (suffix_cons_extend _ (suffix_cons_extend _ (suffix_cons_extend _ ((ih st' segs' i' ts' rfl rfl rfl rfl).2.2.2)))))))
    | (rename_i ih
       exact suffix_cons_extend _ (suffix_cons_extend _ (suffix_cons_extend _ (suffix_cons_extend _ (suffix_cons_extend _ (suffix_cons_extend _ (suffix_cons_extend _ ((ih st' segs' i' ts' rfl rfl rfl rfl).2.2.2))))))))

theorem qLoop_frame (is_relative : Bool) :
    ∀ (st : St) (segs : List Segment) (i : Nat) (ts : List Token)
      (st' : St) (segs' : List Segment) (i' : Nat) (ts' : List Token),
      qLoop is_relative st segs i ts = .ok (st', segs', i', ts') →
      st'.hasStart = st.hasStart ∧ st'.sx = st.sx ∧ st'.sy = st.sy ∧ ts' <:+ ts := by
  intro st segs i ts
  induction st, segs, i, ts using (qLoop.induct is_relative) <;>
    intro st' segs' i' ts' h <;>
    simp_all [qLoop, List.drop_succ_cons, List.drop_one]
  all_goals first
    | (obtain ⟨rfl, -, -, -⟩ := h; simp [List.nil_suffix])
    | (rename_i ih
       exact suffix_cons_extend _ ((ih st' segs' i' ts' rfl rfl rfl rfl).2.2.2))
    | (rename_i ih
       exact suffix_cons_extend _ (suffix_cons_extend _ ((ih st' segs' i' ts' rfl rfl rfl rfl).2.2.2)))
    | (rename_i ih
       exact suffix_cons_extend _ (suffix_cons_extend _ (suffix_cons_extend _ (suffix_cons_extend _ ((ih st' segs' i' ts' rfl rfl rfl rfl).2.2.2)))))
    | (rename_i ih
       exact suffix_cons_extend _ (suffix_cons_extend _ (suffix_cons_extend _ (suffix_cons_extend _ (suffix_cons_extend _ (suffix_cons_extend _ ((ih st' segs' i' ts' rfl rfl rfl rfl).2.2.2)))))))
    | (rename_i ih
       exact suffix_cons_extend _ (suffix_cons_extend _ (suffix_cons_extend _ (suffix_cons_extend _ (suffix_cons_extend _ (suffix_cons_extend _ (suffix_cons_extend _ ((ih st' segs' i' ts' rfl rfl rfl rfl).2.2.2))))))))

theorem tLoop_frame (is_relative : Bool) :
    ∀ (st : St) (segs : List Segment) (i : Nat) (ts : List Token)
      (st' : St) (segs' : List Segment) (i' : Nat) (ts' : List Token),
      tLoop is_relative st segs i ts = .ok (st', segs', i', ts') →
      st'.hasStart = st.hasStart ∧ st'.sx = st.sx ∧ st'.sy = st.sy ∧ ts' <:+ ts := by
  intro st segs i ts
  induction st, segs, i, ts using (tLoop.induct is_relative) <;>
    intro st' segs' i' ts' h <;>
    simp_all [tLoop, List.drop_succ_cons, List.drop_one]
  all_goals first
    | (obtain ⟨rfl, -, -, -⟩ := h; simp [List.nil_suffix])
    | (rename_i ih
       exact suffix_cons_extend _ ((ih st' segs' i' ts' rfl rfl rfl rfl).2.2.2))
    | (rename_i ih
       exact suffix_cons_extend _ (suffix_cons_extend _ ((ih st' segs' i' ts' rfl rfl rfl rfl).2.2.2)))
    | (rename_i ih
       exact suffix_cons_extend _ (suffix_cons_extend _ (suffix_cons_extend _ (suffix_cons_extend _ ((ih st' segs' i' ts' rfl rfl rfl rfl).2.2.2)))))
    | (rename_i ih
       exact suffix_cons_extend _ (suffix_cons_extend _ (suffix_cons_extend _ (suffix_cons_extend _ (suffix_cons_extend _ (suffix_cons_extend _ ((ih st' segs' i' ts' rfl rfl rfl rfl).2.2.2)))))))
    | (rename_i ih
       exact suffix_cons_extend _ (suffix_cons_extend _ (suffix_cons_extend _ (suffix_cons_extend _ (suffix_cons_extend _ (suffix_cons_extend _ (suffix_cons_extend _ ((ih st' segs' i' ts' rfl rfl rfl rfl).2.2.2))))))))

theorem aLoop_frame (O : TrigOracle) (is_relative : Bool) :
    ∀ (st : St) (segs : List Segment) (i : Nat) (ts : List Token)
      (st' : St) (segs' : List Segment) (i' : Nat) (ts' : List Token),
      aLoop O is_relative st segs i ts = .ok (st', segs', i', ts') →
      st'.hasStart = st.hasStart ∧ st'.sx = st.sx ∧ st'.sy = st.sy ∧ ts' <:+ ts := by
  intro st segs i ts
  induction st, segs, i, ts using (aLoop.induct O is_relative) <;>
    intro st' segs' i' ts' h <;>
    simp_all [aLoop, List.drop_succ_cons, List.drop_one]
  all_goals first
    | (obtain ⟨rfl, -, -, -⟩ := h; simp [List.nil_suffix])
    | (rename_i ih
       exact suffix_cons_extend _ ((ih st' segs' i' ts' rfl rfl rfl rfl).2.2.2))
    | (rename_i ih
       exact suffix_cons_extend _ (suffix_cons_extend _ ((ih st' segs' i' ts' rfl rfl rfl rfl).2.2.2)))
    | (rename_i ih
       exact suffix_cons_extend _ (suffix_cons_extend _ (suffix_cons_extend _ (suffix_cons_extend _ ((ih st' segs' i' ts' rfl rfl rfl rfl).2.2.2)))))
    | (rename_i ih
       exact suffix_cons_extend _ (suffix_cons_extend _ (suffix_cons_extend _ (suffix_cons_extend _ (suffix_cons_extend _ (suffix_cons_extend _ ((ih st' segs' i' ts' rfl rfl rfl rfl).2.2.2)))))))
    | (rename_i ih
       exact suffix_cons_extend _ (suffix_cons_extend _ (suffix_cons_extend _ (suffix_cons_extend _ (suffix_cons_extend _ (suffix_cons_extend _ (suffix_cons_extend _ ((ih st' segs' i' ts' rfl rfl rfl rfl).2.2.2))))))))
    | (rename_i ih
       exact suffix_cons_extend _ ((ih st' segs' i' ts' h).2.2.2))
    | (rename_i ih
       exact suffix_cons_extend _ (suffix_cons_extend _ ((ih st' segs' i' ts' h).2.2.2)))
    | (rename_i ih
       exact suffix_cons_extend _ (suffix_cons_extend _ (suffix_cons_extend _ (suffix_cons_extend _ ((ih st' segs' i' ts' h).2.2.2)))))
    | (rename_i ih
       exact suffix_cons_extend _ (suffix_cons_extend _ (suffix_cons_extend _ (suffix_cons_extend _ (suffix_cons_extend _ (suffix_cons_extend _ ((ih st' segs' i' ts' h).2.2.2)))))))
    | (rename_i ih
       exact suffix_cons_extend _ (suffix_cons_extend _ (suffix_cons_extend _ (suffix_cons_extend _ (suffix_cons_extend _ (suffix_cons_extend _ (suffix_cons_extend _ ((ih st' segs' i' ts' h).2.2.2))))))))

/-! ## The smooth-cubic loop appends to its segment list -/

theorem readPoint_nil (r : Bool) (cx cy : ℚ) :
    readPoint r cx cy [] = .error (.parseError "Not enough values for point" 0) := rfl

theorem readPoint_one (r : Bool) (cx cy : ℚ) (t : Token) :
    readPoint r cx cy [t] = .error (.parseError "Not enough values for point" 0) := rfl

theorem sLoop_append (is_relative : Bool) :
    ∀ (st : St) (segs : List Segment) (i : Nat) (ts : List Token)
      (st' : St) (segs' : List Segment) (i' : Nat) (ts' : List Token),
      sLoop is_relative st segs i ts = .ok (st', segs', i', ts') →
      ∃ added, segs' = segs ++ added := by
  intro st segs i ts
  induction st, segs, i, ts using (sLoop.induct is_relative) with
  | case1 st segs i n t2 t3 t4 rest e heq =>
    intro st' segs' i' ts' h
    simp_all [sLoop]
  | case2 st segs i n t2 t3 t4 rest x y h1 e h2 =>
    intro st' segs' i' ts' h
    simp_all [sLoop]
  | case3 =>
    rename_i x y h1 x2 y2 h2 ih
    intro st' segs' i' ts' h
    simp only [sLoop, h1, h2] at h
    obtain ⟨added, ha⟩ := ih st' segs' i' ts' h
    subst ha
    exact ⟨_, List.append_assoc _ _ _⟩
  | case4 st segs i n tail hne e heq =>
    intro st' segs' i' ts' h
    simp_all [sLoop, List.drop_succ_cons, List.drop_one]
  | case5 st segs i n tail hne x y h1 e h2 =>
    intro st' segs' i' ts' h
    simp_all [sLoop, List.drop_succ_cons, List.drop_one]
  | case6 =>
    rename_i hne x y h1 x2 y2 h2
    intro st' segs' i' ts' h
    simp_all [sLoop, List.drop_succ_cons, List.drop_one]
    exact ⟨_, h.2.1.symm⟩
  | case7 st segs i ts h1 h2 =>
    intro st' segs' i' ts' h
    simp only [sLoop, h1, h2] at h
    exact ⟨[], by simp_all⟩

/-- Shape of the `S` loop's result: either no numeric token was consumed and
the segment list is unchanged, or the first appended segment is a cubic whose
control1 is the reflection `2·current − last_control` exactly when the last
executed command letter is `C` or `S`, and the current point otherwise. -/
theorem sLoop_shape (is_relative : Bool) :
    ∀ (st : St) (segs : List Segment) (i : Nat) (ts : List Token)
      (st' : St) (segs' : List Segment) (i' : Nat) (ts' : List Token),
      sLoop is_relative st segs i ts = .ok (st', segs', i', ts') →
      ((∀ (m : ℚ) (tl : List Token), ts ≠ Token.number m :: tl) ∧ segs' = segs) ∨
      (∃ c2x c2y x y tail,
        segs' = segs ++ Segment.cubic
          (if st.lastCmd = 'C' ∨ st.lastCmd = 'S' then 2 * st.cx - st.lcx else st.cx)
          (if st.lastCmd = 'C' ∨ st.lastCmd = 'S' then 2 * st.cy - st.lcy else st.cy)
          c2x c2y x y :: tail) := by
  intro st segs i ts
  induction st, segs, i, ts using (sLoop.induct is_relative) with
  | case1 st segs i n t2 t3 t4 rest e heq =>
    intro st' segs' i' ts' h
    simp_all [sLoop]
  | case2 st segs i n t2 t3 t4 rest x y h1 e h2 =>
    intro st' segs' i' ts' h
    simp_all [sLoop]
  | case3 =>
    rename_i x y h1 x2 y2 h2 ih
    intro st' segs' i' ts' h
    simp only [sLoop, h1, h2] at h
    obtain ⟨added, ha⟩ := sLoop_append is_relative _ _ _ _ _ _ _ _ h
    subst ha
    exact Or.inr ⟨x, y, x2, y2, added, List.append_assoc _ _ _⟩
  | case4 st segs i n tail hne e heq =>
    intro st' segs' i' ts' h
    simp_all [sLoop, List.drop_succ_cons, List.drop_one]
  | case5 st segs i n tail hne x y h1 e h2 =>
    intro st' segs' i' ts' h
    simp_all [sLoop, List.drop_succ_cons, List.drop_one]
  | case6 =>
    rename_i hne x y h1 x2 y2 h2
    intro st' segs' i' ts' h
    simp_all [sLoop, List.drop_succ_cons, List.drop_one]
    exact ⟨x, y, x2, y2, [], h.2.1.symm⟩
  | case7 st segs i ts h1 h2 =>
    intro st' segs' i' ts' h
    simp only [sLoop, h1, h2] at h
    have hne : ∀ (m : ℚ) (tl : List Token), ts ≠ Token.number m :: tl :=
      fun m tl hmtl => h2 m tl hmtl
    have hseg : segs' = segs := by simp_all
    exact Or.inl ⟨hne, hseg⟩

/-! ## Helper lemmas -/

theorem clampI32_eq_self {n : ℤ} (h1 : -2147483648 ≤ n) (h2 : n ≤ 2147483647) :
    clampI32 n = n := by
  unfold clampI32
  rw [min_eq_right h2, max_eq_right h1]

theorem fround_of_nonneg {q : ℚ} (h : 0 ≤ q) : fround q = ⌊q + 1/2⌋ := by
  unfold fround
  rw [if_neg (not_lt.2 h)]

theorem fround_nonneg {q : ℚ} (h : 0 ≤ q) : 0 ≤ fround q := by
  rw [fround_of_nonneg h]
  exact Int.le_floor.2 (by push_cast; linarith)

theorem fround_le_int {q : ℚ} {n : ℤ} (h0 : 0 ≤ q) (h : q ≤ (n : ℚ)) : fround q ≤ n := by
  rw [fround_of_nonneg h0]
  have h1 : ⌊q + 1/2⌋ ≤ ⌊(n : ℚ) + 1/2⌋ := Int.floor_mono (by linarith)
  have h2 : ⌊(n : ℚ) + 1/2⌋ = n := by
    rw [add_comm, Int.floor_add_int]
    norm_num
  omega

theorem fround_add_int {q : ℚ} (n : ℤ) (h : 0 ≤ q) (h2 : 0 ≤ q + (n : ℚ)) :
    fround (q + (n : ℚ)) = fround q + n := by
  rw [fround_of_nonneg h, fround_of_nonneg h2,
    show q + (n : ℚ) + 1/2 = q + 1/2 + (n : ℚ) by ring, Int.floor_add_int]

/-! ## C2: rectangle parse -/

/-- C2: parsing `"M 0,0 L 100,0 L 100,100 L 0,100 Z"` at dpi 96, scale 1 and
zero offsets yields exactly one subpath, start `(0, 0)` native, a Line outline
with exactly four segments (three explicit line-tos plus the synthesized
closing segment back to the start), and `closed = true`. -/
theorem c2_rectangle_parse :
    parse_to_subpaths defaultConfig zeroOracle "M 0,0 L 100,0 L 100,100 L 0,100 Z" =
      .ok [{ start := { x := 0, y := 0 }
             outline := Outline.line
               [{ endPoint := { x := 2646, y := 0 } },
                { endPoint := { x := 2646, y := 2646 } },
                { endPoint := { x := 0, y := 2646 } },
                { endPoint := { x := 0, y := 0 } }]
             closed := true }] := by
  decide

/-! ## Homogenization of built subpaths -/

theorem build_subpath_matches (cfg : SvgConfig) (sx sy : ℚ) (segs : List Segment)
    (closed : Bool) :
    OutlineMatches cfg segs (build_subpath cfg sx sy segs closed).outline := by
  simp only [build_subpath, OutlineMatches]
  rcases hb : segs.any Segment.isCubic with _ | _
  · simp only [hb, Bool.false_eq_true, if_false]
    refine ⟨_, rfl, ?_⟩
    rw [List.forall₂_map_right_iff]
    rw [List.forall₂_same]
    intro s hs x y hxy
    subst hxy
    rfl
  · simp only [hb, if_true]
    refine ⟨_, rfl, ?_⟩
    rw [List.forall₂_map_right_iff]
    rw [List.forall₂_same]
    intro s hs x y hxy
    subst hxy
    exact ⟨rfl, rfl, rfl⟩

theorem build_subpath_homogeneous (cfg : SvgConfig) (sx sy : ℚ) (segs : List Segment)
    (closed : Bool) :
    SubpathHomogeneous cfg (build_subpath cfg sx sy segs closed) :=
  ⟨sx, sy, segs, closed, rfl, build_subpath_matches cfg sx sy segs closed⟩

theorem viaLoop_ok (acc : List ParsedSubpath) (r : LoopRes) (st2 : St)
    (segs2 : List Segment) (acc2 : List ParsedSubpath) (i2 : Nat) (ts2 : List Token)
    (h : viaLoop acc r = .ok (st2, segs2, acc2, i2, ts2)) :
    acc2 = acc ∧ r = .ok (st2, segs2, i2, ts2) := by
  match r with
  | .error e => exact absurd h (by simp [viaLoop])
  | .ok (st3, segs3, i3, ts3) =>
    simp only [viaLoop, Except.ok.injEq, Prod.mk.injEq] at h
    obtain ⟨h1, h2, h3, h4, h5⟩ := h
    subst h1; subst h2; subst h3; subst h4; subst h5
    exact ⟨rfl, rfl⟩

set_option maxHeartbeats 1600000 in
/-- One command dispatch either leaves the output list unchanged or appends a
single built subpath. -/
theorem execCmd_acc (cfg : SvgConfig) (O : TrigOracle) (st : St) (segs : List Segment)
    (acc : List ParsedSubpath) (i : Nat) (c : Char) (rest : List Token)
    (st2 : St) (segs2 : List Segment) (acc2 : List ParsedSubpath) (i2 : Nat)
    (ts2 : List Token)
    (h : execCmd cfg O st segs acc i c rest = .ok (st2, segs2, acc2, i2, ts2)) :
    acc2 = acc ∨ ∃ bx by2 bs bc, acc2 = acc ++ [build_subpath cfg bx by2 bs bc] := by
  unfold execCmd at h
  split_ifs at h with hM hL hH hV hC hS hQ hT hA hZ
  · -- M branch
    unfold execM at h
    rcases hr : readPoint c.isLower st.cx st.cy rest with e | ⟨x, y⟩
    · rw [hr] at h
      exact Except.noConfusion h
    · simp only [hr] at h
      have h2 := (viaLoop_ok _ _ _ _ _ _ _ h).1
      by_cases hfl : (st.hasStart && !(List.isEmpty segs)) = true
      · rw [if_pos hfl] at h2
        exact Or.inr ⟨_, _, _, _, h2⟩
      · rw [if_neg hfl] at h2
        exact Or.inl h2
  · exact Or.inl (viaLoop_ok _ _ _ _ _ _ _ h).1
  · exact Or.inl (viaLoop_ok _ _ _ _ _ _ _ h).1
  · exact Or.inl (viaLoop_ok _ _ _ _ _ _ _ h).1
  · exact Or.inl (viaLoop_ok _ _ _ _ _ _ _ h).1
  · exact Or.inl (viaLoop_ok _ _ _ _ _ _ _ h).1
  · exact Or.inl (viaLoop_ok _ _ _ _ _ _ _ h).1
  · exact Or.inl (viaLoop_ok _ _ _ _ _ _ _ h).1
  · exact Or.inl (viaLoop_ok _ _ _ _ _ _ _ h).1
  · -- Z branch
    unfold execZ at h
    simp only [Except.ok.injEq, Prod.mk.injEq] at h
    obtain ⟨h1, h2, h3, h4, h5⟩ := h
    by_cases hfl : (st.hasStart && !(List.isEmpty segs)) = true
    · rw [if_pos hfl] at h3
      exact Or.inr ⟨_, _, _, _, h3.symm⟩
    · rw [if_neg hfl] at h3
      exact Or.inl h3.symm

/-- The interpreter loop only ever appends `build_subpath` results to its
output accumulator, so homogeneity of the accumulator is an invariant. -/
theorem run_homog (cfg : SvgConfig) (O : TrigOracle) :
    ∀ (fuel : Nat) (st : St) (segs : List Segment) (acc : List ParsedSubpath)
      (i : Nat) (ts : List Token) (out : List ParsedSubpath),
      (∀ sp ∈ acc, SubpathHomogeneous cfg sp) →
      run cfg O fuel st segs acc i ts = .ok out →
      ∀ sp ∈ out, SubpathHomogeneous cfg sp := by
  intro fuel
  induction fuel with
  | zero =>
    intro st segs acc i ts out hacc h
    exact absurd h (by simp [run])
  | succ fuel ih =>
    intro st segs acc i ts out hacc h
    match ts with
    | [] =>
      simp only [run] at h
      by_cases hfl : (st.hasStart && !(List.isEmpty segs)) = true
      · rw [if_pos hfl] at h
        cases h
        intro sp hsp
        rcases List.mem_append.1 hsp with hm | hm
        · exact hacc sp hm
        · rcases List.mem_singleton.1 hm with rfl
          exact build_subpath_homogeneous cfg st.sx st.sy segs false
      · rw [if_neg hfl] at h
        cases h
        exact hacc
    | .number n :: ts' =>
      simp only [run] at h
      exact Except.noConfusion h
    | .command c :: rest =>
      simp only [run] at h
      rcases he : execCmd cfg O st segs acc i c rest with e | ⟨st2, segs2, acc2, i2, ts2⟩
      · rw [he] at h
        exact Except.noConfusion h
      · rw [he] at h
        have hacc2 : ∀ sp ∈ acc2, SubpathHomogeneous cfg sp := by
          rcases execCmd_acc _ _ _ _ _ _ _ _ _ _ _ _ _ he with h2 | ⟨bx, by2, bs, bc, h2⟩
          · rw [h2]; exact hacc
          · rw [h2]
            intro sp hsp
            rcases List.mem_append.1 hsp with hm | hm
            · exact hacc sp hm
            · rcases List.mem_singleton.1 hm with rfl
              exact build_subpath_homogeneous cfg bx by2 bs bc
        exact ih _ _ _ _ _ _ hacc2 h

/-- C1: for every path string the parser accepts, every produced subpath is
homogeneous: its outline is the image of `build_subpath` on the flushed
segment list, so if any segment is a cubic the outline is the bezier variant
with every line segment promoted to a degenerate cubic whose two control
points equal its endpoint, and otherwise it is the line variant holding
exactly the line segments. -/
theorem c1_outline_homogeneous (cfg : SvgConfig) (O : TrigOracle) (d : String)
    (out : List ParsedSubpath) (h : parse_to_subpaths cfg O d = .ok out) :
    ∀ sp ∈ out, SubpathHomogeneous cfg sp := by
  unfold parse_to_subpaths at h
  rcases ht : tokenize d with e | toks
  · rw [ht] at h
    exact Except.noConfusion h
  · rw [ht] at h
    exact run_homog cfg O _ _ _ _ _ _ _ (by intro sp hsp; cases hsp) h

theorem c1_outline_homogeneous_witness :
    parse_to_subpaths defaultConfig zeroOracle "M 0,0 L 10,0 C 10,10 0,10 0,0 Z" =
      .ok [{ start := { x := 0, y := 0 }
             outline := Outline.bezier
               [{ control1 := { x := 265, y := 0 }
                  control2 := { x := 265, y := 0 }
                  endPoint := { x := 265, y := 0 } },
                { control1 := { x := 265, y := 265 }
                  control2 := { x := 0, y := 265 }
                  endPoint := { x := 0, y := 0 } }]
             closed := true }] ∧
    SubpathHomogeneous defaultConfig
      { start := { x := 0, y := 0 }
        outline := Outline.bezier
          [{ control1 := { x := 265, y := 0 }
             control2 := { x := 265, y := 0 }
             endPoint := { x := 265, y := 0 } },
           { control1 := { x := 265, y := 265 }
             control2 := { x := 0, y := 265 }
             endPoint := { x := 0, y := 0 } }]
        closed := true } :=
  ⟨by decide,
   c1_outline_homogeneous defaultConfig zeroOracle "M 0,0 L 10,0 C 10,10 0,10 0,0 Z"
     _ (by decide) _ (List.mem_singleton.2 rfl)⟩

/-- When the dispatched command is not a move and no subpath is open, the
output list is unchanged, no subpath becomes open, and the remaining tokens
are a suffix of the input operands. -/
theorem execCmd_noM (cfg : SvgConfig) (O : TrigOracle) (st : St) (segs : List Segment)
    (acc : List ParsedSubpath) (i : Nat) (c : Char) (rest : List Token)
    (st2 : St) (segs2 : List Segment) (acc2 : List ParsedSubpath) (i2 : Nat)
    (ts2 : List Token)
    (hM : ¬ c.toUpper = 'M') (hst : st.hasStart = false)
    (h : execCmd cfg O st segs acc i c rest = .ok (st2, segs2, acc2, i2, ts2)) :
    acc2 = acc ∧ st2.hasStart = false ∧ ts2 <:+ rest := by
  unfold execCmd at h
  rw [if_neg hM] at h
  split_ifs at h with hL hH hV hC hS hQ hT hA hZ
  all_goals first
    | exact Except.noConfusion h
    | (unfold execZ at h
       simp only [Except.ok.injEq, Prod.mk.injEq] at h
       obtain ⟨h1, h2, h3, h4, h5⟩ := h
       simp only [hst, Bool.false_and, Bool.false_eq_true, if_false] at h3
       refine ⟨h3.symm, ?_, h5 ▸ List.suffix_refl rest⟩
       rw [← h1])
    | (obtain ⟨ha, hr⟩ := viaLoop_ok _ _ _ _ _ _ _ h
       have hfr : st2.hasStart = st.hasStart ∧ st2.sx = st.sx ∧ st2.sy = st.sy ∧
           ts2 <:+ rest := by
         first
           | exact lineLoop_frame c.isLower st segs (i + 1) rest st2 segs2 i2 ts2 hr
           | exact hLoop_frame c.isLower st segs (i + 1) rest st2 segs2 i2 ts2 hr
           | exact vLoop_frame c.isLower st segs (i + 1) rest st2 segs2 i2 ts2 hr
           | exact cLoop_frame c.isLower st segs (i + 1) rest st2 segs2 i2 ts2 hr
           | exact sLoop_frame c.isLower st segs (i + 1) rest st2 segs2 i2 ts2 hr
           | exact qLoop_frame c.isLower st segs (i + 1) rest st2 segs2 i2 ts2 hr
           | exact tLoop_frame c.isLower st segs (i + 1) rest st2 segs2 i2 ts2 hr
           | exact aLoop_frame O c.isLower st segs (i + 1) rest st2 segs2 i2 ts2 hr
       exact ⟨ha, by rw [hfr.1, hst], hfr.2.2.2⟩)

/-- With no open subpath and no move command in the remaining tokens, the
interpreter loop never adds a subpath to its output. -/
theorem run_noM (cfg : SvgConfig) (O : TrigOracle) :
    ∀ (fuel : Nat) (st : St) (segs : List Segment) (acc : List ParsedSubpath)
      (i : Nat) (ts : List Token) (out : List ParsedSubpath),
      st.hasStart = false → NoMoveCmd ts →
      run cfg O fuel st segs acc i ts = .ok out → out = acc := by
  intro fuel
  induction fuel with
  | zero =>
    intro st segs acc i ts out hst hnm h
    exact absurd h (by simp [run])
  | succ fuel ih =>
    intro st segs acc i ts out hst hnm h
    match ts with
    | [] =>
      simp only [run, hst, Bool.false_and, Bool.false_eq_true, if_false,
        Except.ok.injEq] at h
      exact h.symm
    | .number n :: ts' =>
      simp only [run] at h
      exact Except.noConfusion h
    | .command c :: rest =>
      have hM : ¬ c.toUpper = 'M' := hnm c (List.mem_cons_self _ _)
      simp only [run] at h
      rcases he : execCmd cfg O st segs acc i c rest with e | ⟨st2, segs2, acc2, i2, ts2⟩
      · rw [he] at h
        exact Except.noConfusion h
      · rw [he] at h
        obtain ⟨ha, hst2, hsfx⟩ := execCmd_noM _ _ _ _ _ _ _ _ _ _ _ _ _ hM hst he
        have hnm2 : NoMoveCmd ts2 := by
          intro c2 hc2
          exact hnm c2 (List.mem_cons_of_mem _ (hsfx.subset hc2))
        rw [← ha]
        have hst3 : ({ st2 with lastCmd := c.toUpper } : St).hasStart = false := hst2
        exact ih _ _ _ _ _ _ hst3 hnm2 h

/-- C10: once a `Z` has closed a subpath and no subpath is open, drawing
commands with no intervening `M` never add a subpath to the output (their
segments are discarded by the end-of-input flush guard), and in particular
`"M 0,0 L 10,0 Z L 20,20"` parses to exactly one subpath — the closed two-line
outline — with nothing for the trailing `L`. -/
theorem c10_trailing_discarded :
    (∀ (cfg : SvgConfig) (O : TrigOracle) (fuel : Nat) (st : St) (segs : List Segment)
       (acc : List ParsedSubpath) (i : Nat) (ts : List Token) (out : List ParsedSubpath),
       st.hasStart = false → NoMoveCmd ts →
       run cfg O fuel st segs acc i ts = .ok out → out = acc) ∧
    parse_to_subpaths defaultConfig zeroOracle "M 0,0 L 10,0 Z L 20,20" =
      .ok [{ start := { x := 0, y := 0 }
             outline := Outline.line
               [{ endPoint := { x := 265, y := 0 } }, { endPoint := { x := 0, y := 0 } }]
             closed := true }] :=
  ⟨fun cfg O => run_noM cfg O, by decide⟩

theorem c10_trailing_discarded_witness :
    NoMoveCmd [Token.command 'L', Token.number 20, Token.number 20] ∧
    run defaultConfig zeroOracle 4
        { cx := 0, cy := 0, sx := 0, sy := 0, hasStart := false, lcx := 0, lcy := 0,
          lastCmd := 'Z' }
        [] [{ start := { x := 0, y := 0 }
              outline := Outline.line
                [{ endPoint := { x := 265, y := 0 } }, { endPoint := { x := 0, y := 0 } }]
              closed := true }] 5
        [Token.command 'L', Token.number 20, Token.number 20] =
      .ok [{ start := { x := 0, y := 0 }
             outline := Outline.line
               [{ endPoint := { x := 265, y := 0 } }, { endPoint := { x := 0, y := 0 } }]
             closed := true }] ∧
    [({ start := { x := 0, y := 0 }
        outline := Outline.line
          [{ endPoint := { x := 265, y := 0 } }, { endPoint := { x := 0, y := 0 } }]
        closed := true } : ParsedSubpath)] =
      [({ start := { x := 0, y := 0 }
          outline := Outline.line
            [{ endPoint := { x := 265, y := 0 } }, { endPoint := { x := 0, y := 0 } }]
          closed := true } : ParsedSubpath)] := by
  refine ⟨?_, by decide, ?_⟩
  · intro c hc
    rcases List.mem_cons.1 hc with h1 | h1
    · cases h1
      decide
    · rcases List.mem_cons.1 h1 with h2 | h2
      · exact Token.noConfusion h2
      · rcases List.mem_cons.1 h2 with h3 | h3
        · exact Token.noConfusion h3
        · cases h3
  · refine c10_trailing_discarded.1 defaultConfig zeroOracle 4
      { cx := 0, cy := 0, sx := 0, sy := 0, hasStart := false, lcx := 0, lcy := 0,
        lastCmd := 'Z' } []
      [{ start := { x := 0, y := 0 }
         outline := Outline.line
           [{ endPoint := { x := 265, y := 0 } }, { endPoint := { x := 0, y := 0 } }]
         closed := true }] 5
      [Token.command 'L', Token.number 20, Token.number 20]
      [{ start := { x := 0, y := 0 }
         outline := Outline.line
           [{ endPoint := { x := 265, y := 0 } }, { endPoint := { x := 0, y := 0 } }]
         closed := true }] rfl ?_ (by decide)
    intro c hc
    rcases List.mem_cons.1 hc with h1 | h1
    · cases h1
      decide
    · rcases List.mem_cons.1 h1 with h2 | h2
      · exact Token.noConfusion h2
      · rcases List.mem_cons.1 h2 with h3 | h3
        · exact Token.noConfusion h3
        · cases h3

/-! ## Codec round-trip lemmas: each decoder consumes exactly what the
corresponding encoder produced and returns the rest -/

theorem decInt_enc (n : ℤ) (r : List ℤ) : decInt (n :: r) = some (n, r) := rfl

theorem decBool_enc (b : Bool) (r : List ℤ) : decBool (encBool b ++ r) = some (b, r) := by
  cases b <;> simp [encBool, decBool]

theorem decOpt_enc {α : Type _} (f : Dec α) (g : α → List ℤ)
    (hf : ∀ a r, f (g a ++ r) = some (a, r)) (o : Option α) (r : List ℤ) :
    decOpt f (encOpt g o ++ r) = some (o, r) := by
  cases o with
  | none => simp [encOpt, decOpt, decInt]
  | some a => simp [encOpt, decOpt, decInt, hf]

theorem decSeqAux_enc {α : Type _} (f : Dec α) (g : α → List ℤ)
    (hf : ∀ a r, f (g a ++ r) = some (a, r)) :
    ∀ (l : List α) (r : List ℤ),
      decSeqAux f l.length ((l.map g).flatten ++ r) = some (l, r) := by
  intro l
  induction l with
  | nil => intro r; simp [decSeqAux]
  | cons a l ih =>
    intro r
    simp [decSeqAux, List.append_assoc, hf, ih]

theorem decSeq_enc {α : Type _} (f : Dec α) (g : α → List ℤ)
    (hf : ∀ a r, f (g a ++ r) = some (a, r)) (l : List α) (r : List ℤ) :
    decSeq f (encSeq g l ++ r) = some (l, r) := by
  simp [encSeq, decSeq, decInt]
  exact decSeqAux_enc f g hf l r

theorem decPoint_enc (p : Point) (r : List ℤ) : decPoint (encPoint p ++ r) = some (p, r) := rfl

theorem decSegLine_enc (s : SegmentLine) (r : List ℤ) :
    decSegLine (encSegLine s ++ r) = some (s, r) := by
  simp [encSegLine, decSegLine, decPoint_enc]

theorem decSegBezier_enc (s : SegmentBezier) (r : List ℤ) :
    decSegBezier (encSegBezier s ++ r) = some (s, r) := by
  simp [encSegBezier, decSegBezier, List.append_assoc, decPoint_enc]

theorem decOutline_enc (o : Outline) (r : List ℤ) :
    decOutline (encOutline o ++ r) = some (o, r) := by
  cases o with
  | line ls => simp [encOutline, decOutline, decInt, decSeq_enc decSegLine encSegLine decSegLine_enc]
  | bezier bs => simp [encOutline, decOutline, decInt, decSeq_enc decSegBezier encSegBezier decSegBezier_enc]

theorem decPathShape_enc (s : PathShape) (r : List ℤ) :
    decPathShape (encPathShape s ++ r) = some (s, r) := by
  simp [encPathShape, decPathShape, List.append_assoc, decPoint_enc,
    decSeq_enc decOutline encOutline decOutline_enc]

theorem decFcmPath_enc (p : FcmPath) (r : List ℤ) :
    decFcmPath (encFcmPath p ++ r) = some (p, r) := by
  simp [encFcmPath, decFcmPath, decInt, List.append_assoc,
    decOpt_enc decPathShape encPathShape decPathShape_enc,
    decOpt_enc decInt (fun n => [n]) (fun a r => rfl),
    decSeq_enc decPoint encPoint decPoint_enc]

theorem decPiece_enc (pc : Piece) (r : List ℤ) :
    decPiece (encPiece pc ++ r) = some (pc, r) := by
  simp [encPiece, decPiece, List.append_assoc,
    decSeq_enc decInt (fun n => [n]) (fun a r => rfl),
    decSeq_enc decFcmPath encFcmPath decFcmPath_enc]

theorem decIdPiece_enc (e : ℤ × Piece) (r : List ℤ) :
    decIdPiece ((e.1 :: encPiece e.2) ++ r) = some (e, r) := by
  simp [decIdPiece, decInt, decPiece_enc]

theorem decPieceTable_enc (t : PieceTable) (r : List ℤ) :
    decPieceTable (encPieceTable t ++ r) = some (t, r) := by
  simp [encPieceTable, decPieceTable,
    decSeq_enc decIdPiece (fun e => e.1 :: encPiece e.2) decIdPiece_enc]

theorem decFileType_enc (ft : FileType) (r : List ℤ) :
    decFileType (encFileType ft ++ r) = some (ft, r) := by
  cases ft <;> simp [encFileType, decFileType, decInt]

theorem decVariant_enc (v : FileVariant) (r : List ℤ) :
    decVariant (encVariant v ++ r) = some (v, r) := by
  cases v <;> simp [encVariant, decVariant, decInt]

theorem decAlignment_enc (al : AlignmentData) (r : List ℤ) :
    decAlignment (encAlignment al ++ r) = some (al, r) := by
  simp [encAlignment, decAlignment, List.append_assoc, decBool_enc,
    decSeq_enc decPoint encPoint decPoint_enc]

theorem decCutData_enc (cd : CutData) (r : List ℤ) :
    decCutData (encCutData cd ++ r) = some (cd, r) := by
  simp [encCutData, decCutData, List.append_assoc, decFileType_enc,
    decOpt_enc decAlignment encAlignment decAlignment_enc]

theorem decHeader_enc (h : FileHeader) (r : List ℤ) :
    decHeader (encHeader h ++ r) = some (h, r) := by
  simp [encHeader, decHeader, List.append_assoc, decVariant_enc,
    decSeq_enc decInt (fun n => [n]) (fun a r => rfl),
    decOpt_enc decBool encBool decBool_enc]

/-- C3: the codec round-trip law — decoding the encoding of any data-model
value returns exactly that value. -/
theorem c3_codec_roundtrip (f : FcmFile) : decode (encode f) = some f := by
  have he : encode f =
      encHeader f.file_header ++ (encCutData f.cut_data ++ (encPieceTable f.piece_table ++ [])) := by
    simp [encode]
  have h3 : decPieceTable (encPieceTable f.piece_table) = some (f.piece_table, []) := by
    have h4 := decPieceTable_enc f.piece_table []
    simpa using h4
  simp [decode, he, decHeader_enc, decCutData_enc, h3]

/-! ## C4: smooth-cubic reflection -/

/-- C4: every smooth cubic segment's derived control1 is the point-reflection
`2·current − last_control` of the remembered control point through the current
point exactly when the last executed command letter is `C` or `S` (the
`last_command` state is fixed across one command's iterations), and the
current point otherwise; and for
`"M 0,0 C 10,0 20,10 20,20 S 40,40 40,20"` the `S` segment's derived control1
is `(20, 30)` in source units (native `(529, 794)`). -/
theorem c4_smooth_reflection :
    (∀ (is_relative : Bool) (st : St) (segs : List Segment) (i : Nat) (n : ℚ)
       (ts : List Token) (st' : St) (segs' : List Segment) (i' : Nat) (ts' : List Token),
       sLoop is_relative st segs i (Token.number n :: ts) = .ok (st', segs', i', ts') →
       ∃ c2x c2y x y tail,
         segs' = segs ++ Segment.cubic
           (if st.lastCmd = 'C' ∨ st.lastCmd = 'S' then 2 * st.cx - st.lcx else st.cx)
           (if st.lastCmd = 'C' ∨ st.lastCmd = 'S' then 2 * st.cy - st.lcy else st.cy)
           c2x c2y x y :: tail) ∧
    parse_to_subpaths defaultConfig zeroOracle "M 0,0 C 10,0 20,10 20,20 S 40,40 40,20" =
      .ok [{ start := { x := 0, y := 0 }
             outline := Outline.bezier
               [{ control1 := { x := 265, y := 0 }
                  control2 := { x := 529, y := 265 }
                  endPoint := { x := 529, y := 529 } },
                { control1 := SvgConfig.point_to_fcm defaultConfig 20 30
                  control2 := { x := 1058, y := 1058 }
                  endPoint := { x := 1058, y := 529 } }]
             closed := false }] := by
  constructor
  · intro is_relative st segs i n ts st' segs' i' ts' h
    rcases sLoop_shape is_relative st segs i _ st' segs' i' ts' h with ⟨hne, _⟩ | hr
    · exact absurd rfl (hne n ts)
    · exact hr
  · decide

theorem c4_smooth_reflection_witness :
    ∃ c2x c2y x y tail,
      ([Segment.cubic 20 30 40 40 40 20] : List Segment) =
        [] ++ Segment.cubic 20 30 c2x c2y x y :: tail :=
  c4_smooth_reflection.1 false
    { cx := 20, cy := 20, sx := 0, sy := 0, hasStart := true,
      lcx := 20, lcy := 10, lastCmd := 'C' }
    [] 0 40 [Token.number 40, Token.number 40, Token.number 20]
    { cx := 40, cy := 20, sx := 0, sy := 0, hasStart := true,
      lcx := 40, lcy := 40, lastCmd := 'C' }
    [Segment.cubic 20 30 40 40 40 20] 4 [] (by decide)

/-! ## C5: arc degeneracy -/

/-- C5 counterexample: with `rx = 0` and a start that differs from the end
(by less than the 1e-10 tolerance), the arc expansion yields zero segments,
not the single straight line segment the claim requires. -/
theorem c5_arc_degeneracy_counterexample :
    arc_to_beziers zeroOracle 0 0 0 5 0 false false (1/100000000000) 0 = [] ∧
    ((1/100000000000 : ℚ), (0 : ℚ)) ≠ ((0 : ℚ), (0 : ℚ)) := by
  exact ⟨by decide, by decide⟩

/-- C5 amended: an arc whose start equals its end contributes zero segments;
an arc with `rx = 0` or `ry = 0` whose start differs from its end by at least
1e-10 in x or in y contributes exactly one straight line segment. -/
theorem c5_arc_degeneracy (O : TrigOracle) (x1 y1 rx ry xrot : ℚ) (la sw : Bool)
    (x2 y2 : ℚ) :
    arc_to_beziers O x1 y1 rx ry xrot la sw x1 y1 = [] ∧
    ((rx = 0 ∨ ry = 0) →
      (1/10000000000 ≤ |x1 - x2| ∨ 1/10000000000 ≤ |y1 - y2|) →
      arc_to_beziers O x1 y1 rx ry xrot la sw x2 y2 = [Segment.line x2 y2]) := by
  constructor
  · unfold arc_to_beziers
    rw [if_pos]
    constructor <;> · rw [sub_self, abs_zero]; norm_num
  · intro hr hd
    unfold arc_to_beziers
    rw [if_neg, if_pos]
    · rcases hr with hr | hr
      · exact Or.inl (by rw [hr, abs_zero]; norm_num)
      · exact Or.inr (by rw [hr, abs_zero]; norm_num)
    · rintro ⟨h1, h2⟩
      rcases hd with hd | hd <;> linarith

theorem c5_arc_degeneracy_witness :
    arc_to_beziers zeroOracle 0 0 0 5 0 false false 0 0 = [] ∧
    arc_to_beziers zeroOracle 0 0 0 5 0 false false 10 0 = [Segment.line 10 0] :=
  ⟨(c5_arc_degeneracy zeroOracle 0 0 0 5 0 false false 10 0).1,
   (c5_arc_degeneracy zeroOracle 0 0 0 5 0 false false 10 0).2 (Or.inl rfl)
     (Or.inl (by norm_num))⟩

/-! ## C6: offset handling in `point_to_fcm` -/

/-- C6 counterexample: with offset 0.7578125 mm (whose hundredth-of-mm value
75.78125 rounds to 76 but truncates to 75), `point_to_fcm` does not equal the
scaled-and-rounded coordinate plus the offset rounded to the nearest native
unit — the source truncates the offset instead. -/
theorem c6_offset_counterexample :
    SvgConfig.point_to_fcm
        { dpi := 96, scale := 1, offset_x_mm := 97/128, offset_y_mm := 0 } 0 0 ≠
      { x := SvgConfig.to_fcm
            { dpi := 96, scale := 1, offset_x_mm := 97/128, offset_y_mm := 0 } 0 +
          fround ((97/128 : ℚ) * 100)
        y := SvgConfig.to_fcm
            { dpi := 96, scale := 1, offset_x_mm := 97/128, offset_y_mm := 0 } 0 +
          fround ((0 : ℚ) * 100) } := by
  decide

/-- C6 amended: the offset is added as a native-unit integer obtained by
separately *truncating toward zero* (not rounding to nearest) the millimeter
offset times 100, after the scaled coordinate has independently been rounded
to the nearest native unit; the truncation is characterized by the usual
toward-zero inequalities on the non-saturating range. -/
theorem c6_offset_truncation (cfg : SvgConfig) (x y : ℚ) :
    SvgConfig.point_to_fcm cfg x y =
      { x := cfg.to_fcm x + truncToI32 (cfg.offset_x_mm * 100)
        y := cfg.to_fcm y + truncToI32 (cfg.offset_y_mm * 100) } ∧
    (∀ q : ℚ, 0 ≤ q → q ≤ 2147483647 →
      (truncToI32 q : ℚ) ≤ q ∧ q < (truncToI32 q : ℚ) + 1) ∧
    (∀ q : ℚ, -2147483648 ≤ q → q ≤ 0 →
      q ≤ (truncToI32 q : ℚ) ∧ (truncToI32 q : ℚ) - 1 < q) := by
  refine ⟨rfl, ?_, ?_⟩
  · intro q h0 hB
    have hfl : ⌊q⌋ ≤ 2147483647 := by
      calc ⌊q⌋ ≤ ⌊(2147483647 : ℚ)⌋ := Int.floor_mono hB
        _ = 2147483647 := by norm_num
    have hfg0 : (0 : ℤ) ≤ ⌊q⌋ := Int.le_floor.2 (by push_cast; linarith)
    have hfg : -2147483648 ≤ ⌊q⌋ := by omega
    have hq : truncToI32 q = ⌊q⌋ := by
      unfold truncToI32
      rw [if_neg (not_lt.2 h0)]
      exact clampI32_eq_self hfg hfl
    rw [hq]
    exact ⟨Int.floor_le q, Int.lt_floor_add_one q⟩
  · intro q h1 h2
    rcases lt_or_eq_of_le h2 with hq0 | hq0
    · have hfl : ⌊-q⌋ ≤ 2147483648 := by
        calc ⌊-q⌋ ≤ ⌊(2147483648 : ℚ)⌋ := Int.floor_mono (by linarith)
          _ = 2147483648 := by norm_num
      have hfg : 0 ≤ ⌊-q⌋ := Int.le_floor.2 (by push_cast; linarith)
      have hq : truncToI32 q = -⌊-q⌋ := by
        unfold truncToI32
        rw [if_pos hq0]
        exact clampI32_eq_self (by omega) (by omega)
      rw [hq]
      have hle : ((⌊-q⌋ : ℤ) : ℚ) ≤ -q := Int.floor_le (-q)
      have hlt : -q < ((⌊-q⌋ : ℤ) : ℚ) + 1 := Int.lt_floor_add_one (-q)
      constructor <;> · push_cast; linarith
    · subst hq0
      have : truncToI32 0 = 0 := by decide
      rw [this]
      norm_num

theorem c6_offset_truncation_witness :
    SvgConfig.point_to_fcm
        { dpi := 96, scale := 1, offset_x_mm := 97/128, offset_y_mm := 0 } 0 0 =
      { x := SvgConfig.to_fcm
            { dpi := 96, scale := 1, offset_x_mm := 97/128, offset_y_mm := 0 } 0 +
          truncToI32 ((97/128 : ℚ) * 100)
        y := SvgConfig.to_fcm
            { dpi := 96, scale := 1, offset_x_mm := 97/128, offset_y_mm := 0 } 0 +
          truncToI32 ((0 : ℚ) * 100) } ∧
    (truncToI32 ((97/128 : ℚ) * 100) : ℚ) ≤ (97/128 : ℚ) * 100 ∧
    (97/128 : ℚ) * 100 < (truncToI32 ((97/128 : ℚ) * 100) : ℚ) + 1 := by
  obtain ⟨h1, h2, _⟩ :=
    c6_offset_truncation { dpi := 96, scale := 1, offset_x_mm := 97/128, offset_y_mm := 0 } 0 0
  exact ⟨h1, (h2 ((97/128 : ℚ) * 100) (by norm_num) (by norm_num)).1,
    (h2 ((97/128 : ℚ) * 100) (by norm_num) (by norm_num)).2⟩

/-! ## C7: failures on malformed command operands -/

/-- C7: the interpreter on `A 1` — the arc branch's unchecked slice index
`tokens[i + 1]` is out of bounds, so the code panics instead of returning the
`ParseError` the claim (and the library's `Result`-based error design)
prescribes. -/
theorem c7_arc_short_panics :
    parse_tokens defaultConfig zeroOracle [Token.command 'A', Token.number 1] =
      .error PErr.panic := by
  decide

/-! ## C9: registration-mark positions -/

/-- C9 counterexample: for the (degenerate) page 11.995 mm × 279.4 mm the
right mark's native x is `round(-0.5) = -1` while the native page width is
`round(1199.5) = 1200`, so left + right ≠ native width: the four points are
not mirror-symmetric about the page's vertical center line in native units. -/
theorem c9_marks_counterexample :
    get_fcm_alignment_marks { width_mm := 11995/1000, height_mm := 2794/10 } =
      [{ x := 1200, y := 1398 }, { x := -1, y := 1398 },
       { x := -1, y := 26542 }, { x := 1200, y := 26542 }] ∧
    (1200 : ℤ) + -1 ≠ roundToI32 ((11995/1000 : ℚ) * 100) := by
  exact ⟨by decide, by decide⟩

/-- C9 amended: for every page at least as large as the mark insets (and small
enough that native coordinates do not saturate `i32`), the calculator returns
exactly 4 native-unit positions forming an axis-aligned rectangle: one x for
the two left marks, one x for the two right marks mirroring it about the
native vertical center line (left + right = native width), and likewise for
the top/bottom y coordinates. -/
theorem c9_marks_mirror (p : PageSize)
    (hw1 : 12 ≤ p.width_mm) (hw2 : p.width_mm ≤ 20000000)
    (hh1 : 1398/100 ≤ p.height_mm) (hh2 : p.height_mm ≤ 20000000) :
    (get_fcm_alignment_marks p).length = 4 ∧
    ∃ xl xr yt yb : ℤ,
      get_fcm_alignment_marks p =
        [{ x := xl, y := yt }, { x := xr, y := yt },
         { x := xr, y := yb }, { x := xl, y := yb }] ∧
      xl + xr = roundToI32 (p.width_mm * 100) ∧
      yt + yb = roundToI32 (p.height_mm * 100) := by
  refine ⟨rfl, roundToI32 (X_INSET_MM * 100), roundToI32 ((p.width_mm - X_INSET_MM) * 100),
    roundToI32 (Y_INSET_MM * 100), roundToI32 ((p.height_mm - Y_INSET_MM) * 100), rfl, ?_, ?_⟩
  · -- x mirror
    have e1 : roundToI32 (X_INSET_MM * 100) = 1200 := by decide
    have hq0 : 0 ≤ (p.width_mm - X_INSET_MM) * 100 := by
      have : 0 ≤ p.width_mm - X_INSET_MM := by unfold X_INSET_MM; linarith
      positivity
    have hqB : (p.width_mm - X_INSET_MM) * 100 ≤ ((2000000000 : ℤ) : ℚ) := by
      unfold X_INSET_MM
      push_cast
      nlinarith
    have hfr0 : 0 ≤ fround ((p.width_mm - X_INSET_MM) * 100) := fround_nonneg hq0
    have hfrB : fround ((p.width_mm - X_INSET_MM) * 100) ≤ 2000000000 :=
      fround_le_int hq0 hqB
    have e2 : roundToI32 ((p.width_mm - X_INSET_MM) * 100) =
        fround ((p.width_mm - X_INSET_MM) * 100) := by
      unfold roundToI32
      exact clampI32_eq_self (by omega) (by omega)
    have e3 : p.width_mm * 100 = (p.width_mm - X_INSET_MM) * 100 + ((1200 : ℤ) : ℚ) := by
      unfold X_INSET_MM
      push_cast
      ring
    have e4 : fround (p.width_mm * 100) =
        fround ((p.width_mm - X_INSET_MM) * 100) + 1200 := by
      rw [e3]
      exact fround_add_int 1200 hq0 (by push_cast at hqB ⊢; linarith)
    have e5 : roundToI32 (p.width_mm * 100) = fround (p.width_mm * 100) := by
      unfold roundToI32
      rw [e4]
      exact clampI32_eq_self (by omega) (by omega)
    rw [e1, e2, e5, e4]
    omega
  · -- y mirror
    have e1 : roundToI32 (Y_INSET_MM * 100) = 1398 := by decide
    have hq0 : 0 ≤ (p.height_mm - Y_INSET_MM) * 100 := by
      have : 0 ≤ p.height_mm - Y_INSET_MM := by unfold Y_INSET_MM; linarith
      positivity
    have hqB : (p.height_mm - Y_INSET_MM) * 100 ≤ ((2000000000 : ℤ) : ℚ) := by
      unfold Y_INSET_MM
      push_cast
      nlinarith
    have hfr0 : 0 ≤ fround ((p.height_mm - Y_INSET_MM) * 100) := fround_nonneg hq0
    have hfrB : fround ((p.height_mm - Y_INSET_MM) * 100) ≤ 2000000000 :=
      fround_le_int hq0 hqB
    have e2 : roundToI32 ((p.height_mm - Y_INSET_MM) * 100) =
        fround ((p.height_mm - Y_INSET_MM) * 100) := by
      unfold roundToI32
      exact clampI32_eq_self (by omega) (by omega)
    have e3 : p.height_mm * 100 = (p.height_mm - Y_INSET_MM) * 100 + ((1398 : ℤ) : ℚ) := by
      unfold Y_INSET_MM
      push_cast
      ring
    have e4 : fround (p.height_mm * 100) =
        fround ((p.height_mm - Y_INSET_MM) * 100) + 1398 := by
      rw [e3]
      exact fround_add_int 1398 hq0 (by push_cast at hqB ⊢; linarith)
    have e5 : roundToI32 (p.height_mm * 100) = fround (p.height_mm * 100) := by
      unfold roundToI32
      rw [e4]
      exact clampI32_eq_self (by omega) (by omega)
    rw [e1, e2, e5, e4]
    omega

/-! ## C8: the close command -/

/-- C8: executing `Z`/`z` while a subpath is open with at least one segment:
an explicit closing line segment to the subpath start is appended exactly when
the current point differs from the start by more than 1e-3 in x or y; the
subpath is flushed closed; the current point is reset to the subpath start;
and no subpath remains open (the interpreter continues in that state). -/
theorem c8_close_step (cfg : SvgConfig) (O : TrigOracle) (fuel : Nat) (st : St)
    (segs : List Segment) (acc : List ParsedSubpath) (i : Nat) (ts : List Token)
    (c : Char) (hc : c = 'Z' ∨ c = 'z') (hs : st.hasStart = true) (hn : segs ≠ []) :
    run cfg O (fuel + 1) st segs acc i (Token.command c :: ts) =
      run cfg O fuel
        { st with cx := st.sx, cy := st.sy, hasStart := false, lastCmd := 'Z' } []
        (acc ++ [build_subpath cfg st.sx st.sy
          (if |st.cx - st.sx| > 1/1000 ∨ |st.cy - st.sy| > 1/1000
            then segs ++ [Segment.line st.sx st.sy] else segs) true])
        (i + 1) ts := by
  have hu : c.toUpper = 'Z' := by rcases hc with h | h <;> subst h <;> decide
  have hemp : List.isEmpty segs = false := by
    cases segs with
    | nil => exact absurd rfl hn
    | cons a l => rfl
  simp only [run, execCmd, execZ, hu, hs, hemp]
  simp +decide

theorem c8_close_step_witness :
    run defaultConfig zeroOracle (0 + 1)
        { cx := 10, cy := 0, sx := 0, sy := 0, hasStart := true,
          lcx := 0, lcy := 0, lastCmd := 'L' }
        [Segment.line 10 0] [] 2 [Token.command 'Z'] =
      run defaultConfig zeroOracle 0
        { cx := 0, cy := 0, sx := 0, sy := 0, hasStart := false,
          lcx := 0, lcy := 0, lastCmd := 'Z' } []
        ([] ++ [build_subpath defaultConfig 0 0
          (if |(10 : ℚ) - 0| > 1/1000 ∨ |(0 : ℚ) - 0| > 1/1000
            then [Segment.line 10 0] ++ [Segment.line 0 0] else [Segment.line 10 0]) true])
        (2 + 1) [] :=
  c8_close_step defaultConfig zeroOracle 0
    { cx := 10, cy := 0, sx := 0, sy := 0, hasStart := true,
      lcx := 0, lcy := 0, lastCmd := 'L' }
    [Segment.line 10 0] [] 2 [] 'Z' (Or.inl rfl) rfl (by simp)

theorem c9_marks_mirror_witness :
    (get_fcm_alignment_marks PageSize.LETTER).length = 4 ∧
    ∃ xl xr yt yb : ℤ,
      get_fcm_alignment_marks PageSize.LETTER =
        [{ x := xl, y := yt }, { x := xr, y := yt },
         { x := xr, y := yb }, { x := xl, y := yb }] ∧
      xl + xr = roundToI32 (PageSize.LETTER.width_mm * 100) ∧
      yt + yb = roundToI32 (PageSize.LETTER.height_mm * 100) :=
  c9_marks_mirror PageSize.LETTER (by decide) (by decide) (by decide) (by decide)

end Fcm
